import Mathlib

/-!
# Verification of the MedMind blood-test analyzer core

Shallow embedding of the extraction-classification-trend engine of the
MedMind repository (`src/main.py`, `src/database.py`) together with proofs
of the specification claims.  Numeric values are modelled as rationals,
timestamps as integers, and the fallible operations return `Except`/`Option`.
-/

namespace MedMind

/-- Reference-catalog entry: the `{low, high, unit}` value of one key of
`ranges.json` (`reference_ranges` in `src/main.py`). -/
structure Ref where
  low : ℚ
  high : ℚ
  unit : String
deriving DecidableEq, Repr

/-- The short status computed inline in `parse_blood_tests`
(`src/main.py` lines 309-314): `"Normal"`, overridden to `"Low"` when
`value < low`, to `"High"` when `value > high`. -/
def statusShort (value low high : ℚ) : String :=
  if value < low then "Low"
  else if value > high then "High"
  else "Normal"

/-- `get_status_message` from `src/main.py` lines 91-191: the category-keyed
advisory message table, transcribed branch for branch. -/
def get_status_message (test : String) (value : ℚ) (ref : Ref) : String :=
  if test = "Glucose" ∨ test = "HbA1c" then
    if value < ref.low then
      "Low – Blood sugar is below normal. May indicate hypoglycemia or need for dietary adjustment."
    else if value > ref.high then
      "High – Blood sugar is elevated. Consider diet, exercise, and follow up with your doctor."
    else
      "Normal – Blood sugar levels are within healthy range."
  else if test = "Total Cholesterol" ∨ test = "LDL" ∨ test = "HDL" ∨ test = "Triglycerides" then
    if test = "HDL" then
      if value < ref.low then
        "Low – Good cholesterol is low. Consider increasing exercise and healthy fats."
      else
        "Normal – Good cholesterol levels are adequate."
    else if test = "LDL" then
      if value > ref.high then
        "High – Bad cholesterol is elevated. Consider diet changes and exercise."
      else
        "Normal – Bad cholesterol is within healthy range."
    else
      if value < ref.low then
        "Low – Below normal range. Generally good for cardiovascular health."
      else if value > ref.high then
        "High – Elevated levels. Consider dietary changes and lifestyle modifications."
      else
        "Normal – Within healthy range for cardiovascular health."
  else if test = "Iron" ∨ test = "Ferritin" ∨ test = "TIBC" ∨ test = "Transferrin Saturation" then
    if value < ref.low then
      "Low – May indicate iron deficiency. Consider iron-rich foods or supplements."
    else if value > ref.high then
      "High – Elevated iron levels. May need further evaluation for iron overload."
    else
      "Normal – Iron levels are within healthy range."
  else if test = "Vitamin D" ∨ test = "Vitamin B12" ∨ test = "Folate" then
    if value < ref.low then
      "Low – Vitamin deficiency detected. Consider supplementation and dietary sources."
    else if value > ref.high then
      "High – Vitamin levels are elevated. Generally not concerning but monitor intake."
    else
      "Normal – Vitamin levels are adequate."
  else if test = "TSH" ∨ test = "T3" ∨ test = "T4" ∨ test = "Free T4" ∨ test = "Free T3" then
    if value < ref.low then
      "Low – May indicate hyperthyroidism. Consult with your doctor for evaluation."
    else if value > ref.high then
      "High – May indicate hypothyroidism. Follow up with healthcare provider."
    else
      "Normal – Thyroid function appears normal."
  else if test = "ALT" ∨ test = "AST" ∨ test = "ALP" ∨ test = "GGT" then
    if value < ref.low then
      "Low – Below normal range. Generally not concerning for liver function."
    else if value > ref.high then
      "High – Liver enzymes are elevated. May indicate liver stress or damage."
    else
      "Normal – Liver function appears normal."
  else if test = "BUN" ∨ test = "Creatinine" ∨ test = "eGFR" then
    if test = "eGFR" then
      if value < ref.low then
        "Low – Kidney function may be reduced. Follow up with your doctor."
      else
        "Normal – Kidney function appears normal."
    else
      if value < ref.low then
        "Low – Below normal range. Generally indicates good kidney function."
      else if value > ref.high then
        "High – May indicate reduced kidney function. Consult your healthcare provider."
      else
        "Normal – Kidney function markers are within healthy range."
  else if test = "Hemoglobin" ∨ test = "Hematocrit" ∨ test = "RBC" ∨ test = "Iron" ∨ test = "Ferritin" then
    if value < ref.low then
      "Low – May indicate anemia or iron deficiency. Consider iron-rich foods."
    else if value > ref.high then
      "High – Elevated levels. May need further evaluation."
    else
      "Normal – Blood count is within healthy range."
  else if test = "WBC" ∨ test = "Neutrophils" ∨ test = "Lymphocytes" then
    if value < ref.low then
      "Low – White blood cell count is low. May indicate infection or immune issue."
    else if value > ref.high then
      "High – White blood cell count is elevated. May indicate infection or inflammation."
    else
      "Normal – Immune system markers are within healthy range."
  else
    if value < ref.low then
      "Low – Below normal range. Consider consulting with a healthcare provider."
    else if value > ref.high then
      "High – Above normal range. You may want to follow up with your doctor."
    else
      "Normal – Within healthy range."

end MedMind

namespace MedMind

/-! ## History store rows and the trend / comparison engines (`src/database.py`) -/

/-- A persisted `TestResult` row (`src/database.py` lines 24-38).  Timestamps
(`created_at`) are integers measured in days. -/
structure ResultRow where
  userId : String
  testName : String
  value : ℚ
  unit : String
  referenceLow : ℚ
  referenceHigh : ℚ
  status : String
  createdAt : ℤ
deriving DecidableEq, Repr

/-- A persisted `TestSession` row (`src/database.py` lines 40-52), restricted to
the fields the comparison engine reads. -/
structure SessionRow where
  userId : String
  createdAt : ℤ
deriving DecidableEq, Repr

/-- The percentage-change formula shared by `get_test_trends`
(`src/database.py` line 230) and `compare_latest_tests` (line 347):
`(latest - previous) / previous * 100` when `previous != 0`, else `0`. -/
def pctChange (latest previous : ℚ) : ℚ :=
  if previous ≠ 0 then (latest - previous) / previous * 100 else 0

/-- Stable ascending insertion step (model of `ORDER BY created_at ASC`). -/
def insertAscBy {α κ : Type} [LinearOrder κ] (key : α → κ) (x : α) : List α → List α
  | [] => [x]
  | y :: ys => if key y ≤ key x then y :: insertAscBy key x ys else x :: y :: ys

/-- Stable ascending sort. -/
def sortAscBy {α κ : Type} [LinearOrder κ] (key : α → κ) (l : List α) : List α :=
  l.foldl (fun acc x => insertAscBy key x acc) []

/-- Stable descending insertion step (model of Python `list.sort(key, reverse=True)`
and of `ORDER BY created_at DESC`): ties keep their original relative order. -/
def insertDescBy {α κ : Type} [LinearOrder κ] (key : α → κ) (x : α) : List α → List α
  | [] => [x]
  | y :: ys => if key x ≤ key y then y :: insertDescBy key x ys else x :: y :: ys

/-- Stable descending sort. -/
def sortDescBy {α κ : Type} [LinearOrder κ] (key : α → κ) (l : List α) : List α :=
  l.foldl (fun acc x => insertDescBy key x acc) []

/-- The trend classification computed at `src/database.py` lines 233-244
(messages and icons are presentation only and omitted). -/
def trendOf (change percentChange : ℚ) : String :=
  if |percentChange| < 5 then "stable"
  else if change > 0 then "increasing"
  else "decreasing"

/-- The three shapes of dictionary returned by `get_test_trends`
(`src/database.py` lines 210, 217-224 and 265-280). -/
inductive TrendResult where
  | noData
  | insufficientData (latestValue : ℚ) (latestDate : ℤ) (unit : String)
  | analysis (trend : String) (latestValue previousValue change percentChange : ℚ)
      (values : List ℚ) (dates : List ℤ) (unit : String)
      (referenceLow referenceHigh : ℚ) (totalMeasurements : Nat) (timespanMonths : ℤ)
deriving DecidableEq, Repr

/-- The query of `get_test_trends` (`src/database.py` lines 201-207): rows of
one user and test with `created_at >= now - months*30 days`, ordered by
`created_at` ascending. -/
def trendRows (db : List ResultRow) (userId testName : String) (months now : ℤ) : List ResultRow :=
  sortAscBy (fun r => r.createdAt)
    (db.filter (fun r =>
      r.userId == userId && r.testName == testName && decide (now - months * 30 ≤ r.createdAt)))

/-- `lastTwoAux a b l` returns the second-to-last and last element of `a :: b :: l`
(Python `values[-2]`, `values[-1]`). -/
def lastTwoAux {α : Type} (a b : α) : List α → α × α
  | [] => (a, b)
  | c :: t => lastTwoAux b c t

/-- `get_test_trends` from `src/database.py` lines 181-284 (the trend messages,
icons and the appended improvement context are presentation strings and are
omitted; every numeric field and the trend enum are kept). -/
def get_test_trends (db : List ResultRow) (userId testName : String) (months now : ℤ) :
    TrendResult :=
  let results := trendRows db userId testName months now
  match results with
  | [] => .noData
  | [r] => .insufficientData r.value r.createdAt r.unit
  | r0 :: r1 :: rs =>
    let all := r0 :: r1 :: rs
    let (previousRow, latestRow) := lastTwoAux r0 r1 rs
    let latestValue := latestRow.value
    let previousValue := previousRow.value
    let change := latestValue - previousValue
    let percentChange := pctChange latestValue previousValue
    .analysis (trendOf change percentChange) latestValue previousValue change percentChange
      (all.map (fun r => r.value)) (all.map (fun r => r.createdAt)) r0.unit
      latestRow.referenceLow latestRow.referenceHigh all.length months

/-- One record of the `comparisons` list built by `compare_latest_tests`
(`src/database.py` lines 376-388, icons omitted). -/
structure DiffRecord where
  testName : String
  latestValue : ℚ
  previousValue : ℚ
  change : ℚ
  percentChange : ℚ
  changeType : String
  isImprovement : Bool
  unit : String
  latestStatus : String
  previousStatus : String
deriving DecidableEq, Repr

/-- The two shapes of dictionary returned by `compare_latest_tests`
(`src/database.py` lines 310-313 and 409-422). -/
inductive CompareResult where
  | noComparison
  | comparison (latestDate previousDate daysBetween : ℤ) (overallTrend : String)
      (improvements deteriorations stable totalCompared : Nat)
      (comparisons : List DiffRecord)
deriving DecidableEq, Repr

/-- The significance classification of `compare_latest_tests`
(`src/database.py` lines 350-359). -/
def changeTypeOf (change percentChange : ℚ) : String :=
  if |percentChange| < 5 then "stable"
  else if change > 0 then "increased"
  else "decreased"

/-- The lower-is-better measurement list of `compare_latest_tests`
(`src/database.py` line 363). -/
def lowerIsBetter : List String :=
  ["Total Cholesterol", "LDL", "Triglycerides", "Glucose", "HbA1c"]

/-- The favourable-direction decision of `compare_latest_tests`
(`src/database.py` lines 361-368): `is_improvement` starts `False` and is set
only for the lower-is-better list and for HDL. -/
def isImprovementOf (testName : String) (change : ℚ) : Bool :=
  if testName ∈ lowerIsBetter then decide (change < 0)
  else if testName = "HDL" then decide (0 < change)
  else false

/-- One diff record of the comparison loop body (`src/database.py` lines 342-388). -/
def mkDiff (testName : String) (latest previous : ResultRow) : DiffRecord :=
  let change := latest.value - previous.value
  let percentChange := pctChange latest.value previous.value
  { testName := testName
    latestValue := latest.value
    previousValue := previous.value
    change := change
    percentChange := percentChange
    changeType := changeTypeOf change percentChange
    isImprovement := isImprovementOf testName change
    unit := latest.unit
    latestStatus := latest.status
    previousStatus := previous.status }

/-- The Python dict comprehension `{r.test_name: r for r in rows}`
(`src/database.py` lines 331-332): on duplicate names the later row wins. -/
def dictLookup (rows : List ResultRow) (name : String) : Option ResultRow :=
  (rows.filter (fun r => r.testName == name)).getLast?

/-- The comparison loop (`src/database.py` lines 342-388) iterated in `order`,
the iteration order of the Python set `common_tests`; names missing from either
dict cannot occur when `order` enumerates the intersection and are skipped. -/
def comparisonList (order : List String) (latestRows previousRows : List ResultRow) :
    List DiffRecord :=
  order.filterMap (fun name =>
    match dictLookup latestRows name, dictLookup previousRows name with
    | some l, some p => some (mkDiff name l p)
    | _, _ => none)

/-- Count of `improvements` accumulated by the loop (`src/database.py` lines 370-374). -/
def countImprovements (l : List DiffRecord) : Nat :=
  (l.filter (fun d => d.changeType != "stable" && d.isImprovement)).length

/-- Count of `deteriorations` accumulated by the loop (`src/database.py` lines 370-374). -/
def countDeteriorations (l : List DiffRecord) : Nat :=
  (l.filter (fun d => d.changeType != "stable" && !d.isImprovement)).length

/-- Count of `stable` accumulated by the loop (`src/database.py` lines 350-353). -/
def countStable (l : List DiffRecord) : Nat :=
  (l.filter (fun d => d.changeType == "stable")).length

/-- The overall verdict (`src/database.py` lines 396-407). -/
def overallTrendOf (improvements deteriorations : Nat) : String :=
  if improvements > deteriorations then "improving"
  else if deteriorations > improvements then "concerning"
  else "mixed"

/-- The `latest_results` query of `compare_latest_tests` (`src/database.py`
lines 319-322): rows of the user with `created_at >= latest_session.created_at`. -/
def latestRowsOf (resultsDb : List ResultRow) (userId : String) (latestTs : ℤ) :
    List ResultRow :=
  resultsDb.filter (fun r => r.userId == userId && decide (latestTs ≤ r.createdAt))

/-- The `previous_results` query of `compare_latest_tests` (`src/database.py`
lines 324-328): rows of the user with
`previous_session.created_at <= created_at < latest_session.created_at`. -/
def previousRowsOf (resultsDb : List ResultRow) (userId : String) (prevTs latestTs : ℤ) :
    List ResultRow :=
  resultsDb.filter (fun r => r.userId == userId && decide (prevTs ≤ r.createdAt) &&
    decide (r.createdAt < latestTs))

/-- `compare_latest_tests` from `src/database.py` lines 286-426.  `order` models
the iteration order of the Python set intersection `common_tests` (summary
strings and icons are presentation only and omitted). -/
def compare_latest_tests (sessions : List SessionRow) (resultsDb : List ResultRow)
    (userId : String) (order : List String) : CompareResult :=
  let recent := (sortDescBy (fun s => s.createdAt)
    (sessions.filter (fun s => s.userId == userId))).take 2
  match recent with
  | latestS :: prevS :: _ =>
    let latestRows := latestRowsOf resultsDb userId latestS.createdAt
    let previousRows := previousRowsOf resultsDb userId prevS.createdAt latestS.createdAt
    let diffs := comparisonList order latestRows previousRows
    let improvements := countImprovements diffs
    let deteriorations := countDeteriorations diffs
    let stable := countStable diffs
    let sorted := sortDescBy (fun d => |d.percentChange|) diffs
    .comparison latestS.createdAt prevS.createdAt
      (latestS.createdAt - prevS.createdAt)
      (overallTrendOf improvements deteriorations)
      improvements deteriorations stable diffs.length sorted
  | _ => .noComparison

/-- `order` faithfully enumerates the set intersection `common_tests` of
`compare_latest_tests`: no duplicates, and membership is exactly "present in
both dicts". -/
def validOrder (order : List String) (latestRows previousRows : List ResultRow) : Prop :=
  order.Nodup ∧
    ∀ name, name ∈ order ↔
      ((dictLookup latestRows name).isSome ∧ (dictLookup previousRows name).isSome)

/-- The `comparisons` field of a comparison result (empty when there is none). -/
def comparisonsOf : CompareResult → List DiffRecord
  | .noComparison => []
  | .comparison _ _ _ _ _ _ _ _ c => c

/-- Fixture: measurement `A` of user `u` in the earlier session (`created_at = 0`). -/
def rowA0 : ResultRow := ⟨"u", "A", 100, "x", 0, 200, "Normal", 0⟩

/-- Fixture: measurement `B` of user `u` in the earlier session. -/
def rowB0 : ResultRow := ⟨"u", "B", 100, "x", 0, 200, "Normal", 0⟩

/-- Fixture: measurement `A` of user `u` in the later session (`created_at = 1`). -/
def rowA1 : ResultRow := ⟨"u", "A", 110, "x", 0, 200, "Normal", 1⟩

/-- Fixture: measurement `B` of user `u` in the later session. -/
def rowB1 : ResultRow := ⟨"u", "B", 110, "x", 0, 200, "Normal", 1⟩

/-! ## Value extractor (`parse_test_value`, `src/main.py` lines 193-293) -/

/-- ASCII lower-casing, as effected by `re.IGNORECASE` on the patterns of
`parse_test_value` (mirrors `Char.toLower`). -/
def lowerChar (c : Char) : Char :=
  if 65 <= c.toNat && c.toNat <= 90 then Char.ofNat (c.toNat + 32) else c

/-- Case-insensitive character comparison. -/
def lcEq (a b : Char) : Bool := lowerChar a == lowerChar b

/-- Case-insensitive match of a pattern literal at the head of the text. -/
def isPrefixCI : List Char → List Char → Bool
  | [], _ => true
  | _ :: _, [] => false
  | a :: as, b :: bs => lcEq a b && isPrefixCI as bs

/-- Python `\d` (mirrors `Char.isDigit`: code between 48 and 57). -/
def isDigitChar (c : Char) : Bool := 48 ≤ c.toNat && c.toNat ≤ 57

/-- Python `\s` (space, tab, carriage return, newline). -/
def isWsChar (c : Char) : Bool := c.isWhitespace

/-- Python `\w`, for the word boundaries of pattern 5. -/
def isWordChar (c : Char) : Bool := c.isAlphanum || c == '_'

/-- Greedily consume `\s*`. -/
def dropWs (s : List Char) : List Char := s.dropWhile isWsChar

/-- The capture group `(\d+\.?\d*)`: a digit run, an optional dot, a digit run. -/
def captureNum : List Char → Option (List Char)
  | [] => none
  | c :: rest =>
    if isDigitChar c then
      let d1 := (c :: rest).takeWhile isDigitChar
      let r1 := (c :: rest).dropWhile isDigitChar
      match r1 with
      | '.' :: r2 => some (d1 ++ '.' :: r2.takeWhile isDigitChar)
      | _ => some d1
    else none

/-- Consume the optional `:?` of pattern 1. -/
def stripColon : List Char → List Char
  | [] => []
  | c :: r => if c == ':' then r else c :: r

/-- Tail of pattern 1 after the literal: `\s*:?\s*(\d+\.?\d*)`. -/
def p1tail (s : List Char) : Option (List Char) :=
  captureNum (dropWs (stripColon (dropWs s)))

/-- Tail of pattern 2 after the literal: `\s+(\d+\.?\d*)`. -/
def p2tail : List Char → Option (List Char)
  | [] => none
  | c :: r => if isWsChar c then captureNum (dropWs r) else none

/-- Tail of pattern 3 after the literal: `.*?(\d+\.?\d*)`, lazily skipping
non-newline characters up to the first digit. -/
def p3tail : List Char → Option (List Char)
  | [] => none
  | c :: r =>
    if isDigitChar c then captureNum (c :: r)
    else if c == '\n' then none
    else p3tail r

/-- Consume the optional `[:\-=]?` of patterns 4 and 5. -/
def stripSep : List Char → List Char
  | [] => []
  | c :: r => if c == ':' || c == '-' || c == '=' then r else c :: r

/-- Tail of patterns 4 and 5 after the literal: `\s*[:\-=]?\s*(\d+\.?\d*)`. -/
def p4tail (s : List Char) : Option (List Char) :=
  captureNum (dropWs (stripSep (dropWs s)))

/-- `re.search` for the literal-headed patterns 1-4: try every position left
to right, match the literal case-insensitively, then run the pattern tail. -/
def searchLit (variant : List Char) (tl : List Char → Option (List Char)) :
    List Char → Option (List Char)
  | [] => if isPrefixCI variant [] then tl (List.drop variant.length []) else none
  | c :: r =>
    match (if isPrefixCI variant (c :: r) then tl ((c :: r).drop variant.length) else none) with
    | some cap => some cap
    | none => searchLit variant tl r

/-- A `\b` word boundary between two adjacent characters (string edges count
as non-word). -/
def isBoundary (prev next : Option Char) : Bool :=
  (match prev with | some c => isWordChar c | none => false) !=
    (match next with | some c => isWordChar c | none => false)

/-- `re.search` for pattern 5, `(?i)\b<literal>\b\s*[:\-=]?\s*(\d+\.?\d*)`:
like `searchLit` with `p4tail`, with word boundaries on both sides of the
literal. -/
def searchB (variant : List Char) (prev : Option Char) :
    List Char → Option (List Char)
  | [] => none
  | c :: r =>
    match (if isPrefixCI variant (c :: r) && isBoundary prev (some c) &&
            isBoundary (((c :: r).take variant.length).getLast?)
              (((c :: r).drop variant.length).head?)
          then p4tail ((c :: r).drop variant.length) else none) with
    | some cap => some cap
    | none => searchB variant (some c) r

/-- The five patterns of `parse_test_value` tried in order for one variant
(`src/main.py` lines 277-291). -/
def tryPatternsFor (variant : List Char) (text : List Char) : Option (List Char) :=
  match searchLit variant p1tail text with
  | some cap => some cap
  | none =>
    match searchLit variant p2tail text with
    | some cap => some cap
    | none =>
      match searchLit variant p3tail text with
      | some cap => some cap
      | none =>
        match searchLit variant p4tail text with
        | some cap => some cap
        | none => searchB variant none text

/-- The variant loop of `parse_test_value`: the first variant whose
five-pattern search succeeds wins. -/
def tryVariants : List String → List Char → Option (List Char)
  | [], _ => none
  | v :: vs, text =>
    match tryPatternsFor v.toList text with
    | some cap => some cap
    | none => tryVariants vs text

/-- The `test_variants` table of `parse_test_value`
(`src/main.py` lines 197-270). -/
def test_variants : List (String × List String) := [
  ("Hemoglobin", ["Hemoglobin", "Hgb", "Hb", "HGB"]),
  ("Hematocrit", ["Hematocrit", "Hct", "HCT"]),
  ("RBC", ["RBC", "Red Blood Cell", "Red Blood Cells", "Erythrocytes"]),
  ("WBC", ["WBC", "White Blood Cell", "White Blood Cells", "Leukocytes"]),
  ("Platelets", ["Platelets", "PLT", "Thrombocytes"]),
  ("MCV", ["MCV", "Mean Corpuscular Volume"]),
  ("MCH", ["MCH", "Mean Corpuscular Hemoglobin"]),
  ("MCHC", ["MCHC", "Mean Corpuscular Hemoglobin Concentration"]),
  ("RDW", ["RDW", "Red Cell Distribution Width"]),
  ("Neutrophils", ["Neutrophils", "Neut", "PMN"]),
  ("Lymphocytes", ["Lymphocytes", "Lymph", "LYM"]),
  ("Monocytes", ["Monocytes", "Mono", "MON"]),
  ("Eosinophils", ["Eosinophils", "Eos", "EOS"]),
  ("Basophils", ["Basophils", "Baso", "BAS"]),
  ("Glucose", ["Glucose", "GLU", "Blood Sugar", "BS"]),
  ("HbA1c", ["HbA1c", "A1C", "Hemoglobin A1c", "Glycated Hemoglobin"]),
  ("BUN", ["BUN", "Blood Urea Nitrogen", "Urea"]),
  ("Creatinine", ["Creatinine", "CREAT", "Cr"]),
  ("eGFR", ["eGFR", "GFR", "Estimated GFR"]),
  ("Sodium", ["Sodium", "Na", "NA"]),
  ("Potassium", ["Potassium", "K", "K+"]),
  ("Chloride", ["Chloride", "Cl", "CL"]),
  ("CO2", ["CO2", "Carbon Dioxide", "Bicarbonate", "HCO3"]),
  ("Calcium", ["Calcium", "Ca", "CA"]),
  ("Phosphorus", ["Phosphorus", "Phos", "PO4", "Phosphate"]),
  ("Magnesium", ["Magnesium", "Mg", "MG"]),
  ("Total Protein", ["Total Protein", "TP", "Protein Total"]),
  ("Albumin", ["Albumin", "ALB", "Alb"]),
  ("Globulin", ["Globulin", "GLOB", "Glob"]),
  ("A/G Ratio", ["A/G Ratio", "Albumin Globulin Ratio", "AG Ratio"]),
  ("Bilirubin Total", ["Bilirubin Total", "Total Bilirubin", "T Bil", "TBIL"]),
  ("Bilirubin Direct", ["Bilirubin Direct", "Direct Bilirubin", "D Bil", "DBIL"]),
  ("ALT", ["ALT", "SGPT", "Alanine Aminotransferase"]),
  ("AST", ["AST", "SGOT", "Aspartate Aminotransferase"]),
  ("ALP", ["ALP", "Alkaline Phosphatase", "Alk Phos"]),
  ("GGT", ["GGT", "Gamma GT", "Gamma Glutamyl Transferase"]),
  ("LDH", ["LDH", "Lactate Dehydrogenase"]),
  ("Total Cholesterol", ["Total Cholesterol", "Cholesterol", "CHOL", "TC"]),
  ("HDL", ["HDL", "HDL Cholesterol", "Good Cholesterol"]),
  ("LDL", ["LDL", "LDL Cholesterol", "Bad Cholesterol"]),
  ("Triglycerides", ["Triglycerides", "TG", "TRIG"]),
  ("TSH", ["TSH", "Thyroid Stimulating Hormone"]),
  ("T3", ["T3", "Triiodothyronine", "Total T3"]),
  ("T4", ["T4", "Thyroxine", "Total T4"]),
  ("Free T4", ["Free T4", "FT4", "T4 Free"]),
  ("Free T3", ["Free T3", "FT3", "T3 Free"]),
  ("Iron", ["Iron", "Fe", "Serum Iron"]),
  ("Ferritin", ["Ferritin", "Ferr"]),
  ("TIBC", ["TIBC", "Total Iron Binding Capacity"]),
  ("Transferrin Saturation", ["Transferrin Saturation", "TSAT", "Iron Saturation"]),
  ("Vitamin D", ["Vitamin D", "25-OH Vitamin D", "25(OH)D", "Vit D"]),
  ("Vitamin B12", ["Vitamin B12", "B12", "Cobalamin", "Vit B12"]),
  ("Folate", ["Folate", "Folic Acid", "B9"]),
  ("CRP", ["CRP", "C-Reactive Protein", "C Reactive Protein"]),
  ("ESR", ["ESR", "Erythrocyte Sedimentation Rate", "Sed Rate"]),
  ("PSA", ["PSA", "Prostate Specific Antigen"]),
  ("Testosterone", ["Testosterone", "Total Testosterone", "Test"]),
  ("Estradiol", ["Estradiol", "E2", "Estrogen"]),
  ("Progesterone", ["Progesterone", "Prog"]),
  ("Cortisol", ["Cortisol", "Hydrocortisone"]),
  ("Insulin", ["Insulin", "INS"]),
  ("C-Peptide", ["C-Peptide", "C Peptide"]),
  ("Uric Acid", ["Uric Acid", "UA", "Urate"]),
  ("Lactate", ["Lactate", "Lactic Acid"]),
  ("Ammonia", ["Ammonia", "NH3"]),
  ("Troponin I", ["Troponin I", "TnI", "cTnI"]),
  ("BNP", ["BNP", "B-type Natriuretic Peptide"]),
  ("PT", ["PT", "Prothrombin Time"]),
  ("PTT", ["PTT", "Partial Thromboplastin Time", "aPTT"]),
  ("INR", ["INR", "International Normalized Ratio"]),
  ("D-Dimer", ["D-Dimer", "D Dimer"]),
  ("Fibrinogen", ["Fibrinogen", "Fibr"])
]

/-- Numeric value of a digit run. -/
def digitsToNat (l : List Char) : Nat :=
  l.foldl (fun n c => n * 10 + (c.toNat - 48)) 0

/-- Python `float` on a capture of shape `\d+\.?\d*`, as an exact rational. -/
def capToRat (cap : List Char) : ℚ :=
  let d1 := cap.takeWhile isDigitChar
  let rest := cap.dropWhile isDigitChar
  match rest with
  | '.' :: d2 => (digitsToNat d1 : ℚ) + (digitsToNat d2 : ℚ) / (10 : ℚ) ^ d2.length
  | _ => (digitsToNat d1 : ℚ)

/-- The variants tried for a test name: the `test_variants` entry if the name
is listed, otherwise the name itself (`src/main.py` lines 272-275). -/
def lookupVariants (testName : String) : List String :=
  match test_variants.lookup testName with
  | some vs => vs
  | none => [testName]

/-- `parse_test_value` from `src/main.py` lines 193-293: alias-aware, five
matching strategies per alias, first success wins; the captured group always
parses as a float. -/
def parse_test_value (text : String) (testName : String) : Option ℚ :=
  (tryVariants (lookupVariants testName) text.toList).map capToRat

/-- A digit or a dot: the only characters a number capture can contain. -/
def isDigitDot (c : Char) : Bool := isDigitChar c || c == '.'

/-- Neither a digit nor a dot. -/
def noDigitDotChar (c : Char) : Bool := !(isDigitDot c)

/-- A well-formed number literal as matched whole by `(\d+\.?\d*)`:
a nonempty digit run optionally followed by a dot and another digit run. -/
def validNumB : List Char → Bool
  | [] => false
  | c :: rest =>
    isDigitChar c &&
      (match (c :: rest).dropWhile isDigitChar with
       | [] => true
       | '.' :: d2 => d2.all isDigitChar
       | _ => false)

/-- Occurrence condition: if the variant matches (case-insensitively) at this
suffix of the prefix text, everything after the occurrence is digit-free. -/
def okOcc (V s : List Char) : Bool :=
  !(isPrefixCI V s) || (s.drop V.length).all (fun c => !(isDigitChar c))

/-- `okOcc` for every suffix. -/
def okOccAll (V : List Char) : List Char → Bool
  | [] => okOcc V []
  | c :: r => okOcc V (c :: r) && okOccAll V r

/-- Overlap condition: the variant cannot straddle the boundary between the
prefix text and the number, because the part that would land on the number is
not all digits and dots. -/
def okOverlap (V s : List Char) : Bool :=
  decide (V.length ≤ s.length) || !(isPrefixCI (V.take s.length) s) ||
    (V.drop s.length).any noDigitDotChar

/-- `okOverlap` for every nonempty suffix. -/
def okOverlapAll (V : List Char) : List Char → Bool
  | [] => true
  | c :: r => okOverlap V (c :: r) && okOverlapAll V r

/-- A variant is harmless against the prefix text `P` (alias plus separator):
it contains a non-digit-dot character, every occurrence of it inside `P` has a
digit-free tail, and it cannot straddle into the number. -/
def goodVariant (V P : List Char) : Bool :=
  V.any noDigitDotChar && okOccAll V P && okOverlapAll V P

/-- The five separator styles between the alias and the number. -/
def seps : List String := ["", ":", " ", "-", "="]

/-! ## Panel parser (`parse_blood_tests` and the analyze flow, `src/main.py`) -/

/-- One element of the result list built by `parse_blood_tests`
(`src/main.py` lines 316-323; the formatted `range` string is presentation
only and its two numeric components are kept). -/
structure ExtractedValue where
  test : String
  value : ℚ
  unit : String
  rangeLow : ℚ
  rangeHigh : ℚ
  statusMessage : String
  short : String
deriving DecidableEq, Repr

/-- Python `not text.strip()`: the text contains only whitespace. -/
def textIsBlank (text : String) : Bool := text.toList.all isWsChar

/-- `parse_blood_tests` from `src/main.py` lines 296-335: iterate the whole
catalog, skip entries whose extraction fails, and fail only when the entire
catalog produced nothing (plus the guard for blank input text). -/
def parse_blood_tests (text : String) (catalog : List (String × Ref)) :
    Except String (List ExtractedValue) :=
  if textIsBlank text then .error "No text provided for parsing"
  else
    let results := catalog.filterMap (fun entry =>
      match parse_test_value text entry.1 with
      | some v => some ⟨entry.1, v, entry.2.unit, entry.2.low, entry.2.high,
          get_status_message entry.1 v entry.2, statusShort v entry.2.low entry.2.high⟩
      | none => none)
    if results.length = 0 then
      .error "No blood test values could be extracted from the document"
    else .ok results

/-- The storage-relevant skeleton of the `analyze_pdf` flow
(`src/main.py` lines 394-411): `store_test_results` runs only after
`parse_blood_tests` returned successfully, so a parse failure leaves the
stored history unchanged. -/
def analyze_pdf_flow (text : String) (catalog : List (String × Ref))
    (db : List (List ExtractedValue)) :
    Except String (List ExtractedValue) × List (List ExtractedValue) :=
  match parse_blood_tests text catalog with
  | .error e => (.error e, db)
  | .ok results => (.ok results, db ++ [results])

/-- Decidable table-wide check behind the alias-resolution claim: every
registered variant of every catalog entry is harmless against every
alias-plus-separator prefix built from the same entry. -/
def tableGood : Bool :=
  test_variants.all (fun entry =>
    entry.2.all (fun al =>
      seps.all (fun sep =>
        entry.2.all (fun v =>
          goodVariant v.toList (al.toList ++ sep.toList)))))

/-! ## Helper lemmas about the sorting and trend machinery -/

theorem insertDescBy_perm {α κ : Type} [LinearOrder κ] (key : α → κ) (x : α) (l : List α) :
    List.Perm (insertDescBy key x l) (x :: l) := by
  induction l with
  | nil => exact List.Perm.refl _
  | cons y ys ih =>
    unfold insertDescBy
    by_cases hxy : key x ≤ key y
    · rw [if_pos hxy]
      exact (ih.cons y).trans (List.Perm.swap x y ys)
    · rw [if_neg hxy]

theorem sortDescBy_perm {α κ : Type} [LinearOrder κ] (key : α → κ) (l : List α) :
    List.Perm (sortDescBy key l) l := by
  have main : ∀ (l acc : List α),
      List.Perm (l.foldl (fun acc x => insertDescBy key x acc) acc) (l ++ acc) := by
    intro l
    induction l with
    | nil => intro acc; simp
    | cons x xs ih =>
      intro acc
      have h1 := ih (insertDescBy key x acc)
      have h2 : List.Perm (xs ++ insertDescBy key x acc) (xs ++ (x :: acc)) :=
        List.Perm.append_left xs (insertDescBy_perm key x acc)
      have h3 : List.Perm (xs ++ (x :: acc)) (x :: (xs ++ acc)) := List.perm_middle
      simpa using (h1.trans h2).trans h3
  simpa using main l []

theorem insertDescBy_sorted {α κ : Type} [LinearOrder κ] (key : α → κ) (x : α) {l : List α}
    (h : List.Pairwise (fun a b => key b ≤ key a) l) :
    List.Pairwise (fun a b => key b ≤ key a) (insertDescBy key x l) := by
  induction l with
  | nil => simp [insertDescBy]
  | cons y ys ih =>
    rcases List.pairwise_cons.mp h with ⟨hy, hys⟩
    unfold insertDescBy
    by_cases hxy : key x ≤ key y
    · rw [if_pos hxy]
      refine List.pairwise_cons.mpr ⟨?_, ih hys⟩
      intro z hz
      rcases List.mem_cons.mp ((insertDescBy_perm key x ys).mem_iff.mp hz) with rfl | hzys
      · exact hxy
      · exact hy z hzys
    · rw [if_neg hxy]
      refine List.pairwise_cons.mpr ⟨?_, h⟩
      intro z hz
      rcases List.mem_cons.mp hz with rfl | hzys
      · exact le_of_lt (not_le.mp hxy)
      · exact le_trans (hy z hzys) (le_of_lt (not_le.mp hxy))

theorem sortDescBy_sorted {α κ : Type} [LinearOrder κ] (key : α → κ) (l : List α) :
    List.Pairwise (fun a b => key b ≤ key a) (sortDescBy key l) := by
  have main : ∀ (l acc : List α), List.Pairwise (fun a b => key b ≤ key a) acc →
      List.Pairwise (fun a b => key b ≤ key a)
        (l.foldl (fun acc x => insertDescBy key x acc) acc) := by
    intro l
    induction l with
    | nil => intro acc h; exact h
    | cons x xs ih => intro acc h; exact ih _ (insertDescBy_sorted key x h)
  exact main l [] List.Pairwise.nil

theorem lastTwoAux_spec {α : Type} (a b : α) (l : List α) :
    (a :: b :: l).getLast? = some (lastTwoAux a b l).2 ∧
    (a :: b :: l).dropLast.getLast? = some (lastTwoAux a b l).1 := by
  induction l generalizing a b with
  | nil => simp [lastTwoAux]
  | cons c t ih =>
    have h := ih b c
    unfold lastTwoAux
    constructor
    · rw [List.getLast?_cons_cons]
      exact h.1
    · have hd : (a :: b :: c :: t).dropLast = a :: b :: (c :: t).dropLast := rfl
      rw [hd, List.getLast?_cons_cons]
      have hd2 : (b :: c :: t).dropLast = b :: (c :: t).dropLast := rfl
      rw [← hd2]
      exact h.2

theorem pctChange_eq (a b : ℚ) : pctChange a b = (a - b) / b * 100 := by
  unfold pctChange
  by_cases h : b ≠ 0
  · rw [if_pos h]
  · rw [if_neg h]
    push_neg at h
    rw [h, div_zero, zero_mul]

theorem get_test_trends_nil {db : List ResultRow} {u t : String} {m n : ℤ}
    (h : trendRows db u t m n = []) : get_test_trends db u t m n = .noData := by
  simp only [get_test_trends, h]

theorem get_test_trends_single {db : List ResultRow} {u t : String} {m n : ℤ} {r : ResultRow}
    (h : trendRows db u t m n = [r]) :
    get_test_trends db u t m n = .insufficientData r.value r.createdAt r.unit := by
  simp only [get_test_trends, h]

theorem get_test_trends_cons_cons {db : List ResultRow} {u t : String} {m n : ℤ}
    {r0 r1 : ResultRow} {rs : List ResultRow} {p l : ResultRow}
    (h : trendRows db u t m n = r0 :: r1 :: rs) (h2 : lastTwoAux r0 r1 rs = (p, l)) :
    get_test_trends db u t m n =
      .analysis (trendOf (l.value - p.value) (pctChange l.value p.value))
        l.value p.value (l.value - p.value) (pctChange l.value p.value)
        ((r0 :: r1 :: rs).map (fun r => r.value)) ((r0 :: r1 :: rs).map (fun r => r.createdAt))
        r0.unit l.referenceLow l.referenceHigh (r0 :: r1 :: rs).length m := by
  simp only [get_test_trends, h, h2]

/-- C2: trend analysis over the `months*30`-day window: no rows give `no_data`,
one row gives `insufficient_data` reporting only that latest value, two or more
rows compare only the two most recent (the last two of the ascending series),
with `changePercent = (latest - previous)/previous * 100`, `stable` exactly when
`|changePercent| < 5` regardless of sign, else increasing/decreasing by the sign
of the raw change. -/
theorem claim_C2_trend_analysis (db : List ResultRow) (u t : String) (m n : ℤ) :
    (trendRows db u t m n = [] → get_test_trends db u t m n = .noData) ∧
    (∀ r, trendRows db u t m n = [r] →
      get_test_trends db u t m n = .insufficientData r.value r.createdAt r.unit) ∧
    (∀ r0 r1 rs p l, trendRows db u t m n = r0 :: r1 :: rs →
      lastTwoAux r0 r1 rs = (p, l) →
      ((r0 :: r1 :: rs).getLast? = some l ∧ (r0 :: r1 :: rs).dropLast.getLast? = some p) ∧
      get_test_trends db u t m n =
        .analysis (trendOf (l.value - p.value) (pctChange l.value p.value))
          l.value p.value (l.value - p.value) (pctChange l.value p.value)
          ((r0 :: r1 :: rs).map (fun r => r.value)) ((r0 :: r1 :: rs).map (fun r => r.createdAt))
          r0.unit l.referenceLow l.referenceHigh (r0 :: r1 :: rs).length m) ∧
    (∀ a b : ℚ, pctChange a b = (a - b) / b * 100) ∧
    (∀ c pc : ℚ, (|pc| < 5 → trendOf c pc = "stable") ∧
      (¬ |pc| < 5 →
        (0 < c → trendOf c pc = "increasing") ∧ (c < 0 → trendOf c pc = "decreasing"))) := by
  refine ⟨fun h => get_test_trends_nil h, fun r h => get_test_trends_single h,
    ?_, pctChange_eq, ?_⟩
  · intro r0 r1 rs p l h h2
    refine ⟨?_, get_test_trends_cons_cons h h2⟩
    have hs := lastTwoAux_spec r0 r1 rs
    rw [h2] at hs
    exact hs
  · intro c pc
    constructor
    · intro h; unfold trendOf; rw [if_pos h]
    · intro h
      constructor
      · intro hc; unfold trendOf; rw [if_neg h, if_pos hc]
      · intro hc
        unfold trendOf
        rw [if_neg h, if_neg (not_lt.mpr (le_of_lt hc))]

/-- Witness for C2: a two-row history for one user and test. -/
theorem claim_C2_trend_analysis_witness :
    get_test_trends
      [⟨"u", "Glucose", 100, "mg/dL", 70, 99, "High", 0⟩,
       ⟨"u", "Glucose", 90, "mg/dL", 70, 99, "Normal", 1⟩] "u" "Glucose" 12 0 =
      .analysis "decreasing" 90 100 (-10) (-10) [100, 90] [0, 1] "mg/dL" 70 99 2 12 := by
  have h := ((claim_C2_trend_analysis
      [⟨"u", "Glucose", 100, "mg/dL", 70, 99, "High", 0⟩,
       ⟨"u", "Glucose", 90, "mg/dL", 70, 99, "Normal", 1⟩] "u" "Glucose" 12 0).2.2.1
    ⟨"u", "Glucose", 100, "mg/dL", 70, 99, "High", 0⟩
    ⟨"u", "Glucose", 90, "mg/dL", 70, 99, "Normal", 1⟩ []
    ⟨"u", "Glucose", 100, "mg/dL", 70, 99, "High", 0⟩
    ⟨"u", "Glucose", 90, "mg/dL", 70, 99, "Normal", 1⟩ (by decide) rfl).2
  rw [h]
  norm_num [pctChange, trendOf]

/-- C3: the zero-previous guard.  In the trend analysis and in the session
comparison, a previous value of `0` yields `changePercent = 0` (never a
division by zero) and the measurement is classified stable. -/
theorem claim_C3_zero_previous_guard :
    (∀ latest : ℚ, pctChange latest 0 = 0) ∧
    (∀ (db : List ResultRow) (u t : String) (m n : ℤ) r0 r1 rs p l,
      trendRows db u t m n = r0 :: r1 :: rs →
      lastTwoAux r0 r1 rs = (p, l) →
      p.value = 0 →
      get_test_trends db u t m n =
        .analysis "stable" l.value 0 l.value 0
          ((r0 :: r1 :: rs).map (fun r => r.value)) ((r0 :: r1 :: rs).map (fun r => r.createdAt))
          r0.unit l.referenceLow l.referenceHigh (r0 :: r1 :: rs).length m) ∧
    (∀ (order : List String) (latestRows previousRows : List ResultRow),
      ∀ d ∈ comparisonList order latestRows previousRows,
        d.previousValue = 0 → d.percentChange = 0 ∧ d.changeType = "stable") := by
  have hpc0 : ∀ latest : ℚ, pctChange latest 0 = 0 := by
    intro latest; unfold pctChange; simp
  have hstable : trendOf (0 : ℚ) 0 = "stable" := by
    unfold trendOf; rw [if_pos (by norm_num : |(0 : ℚ)| < 5)]
  refine ⟨hpc0, ?_, ?_⟩
  · intro db u t m n r0 r1 rs p l h h2 hp
    have heq := get_test_trends_cons_cons h h2
    rw [hp] at heq
    rw [sub_zero, hpc0] at heq
    rw [heq]
    have ht : trendOf l.value 0 = "stable" := by
      unfold trendOf; rw [if_pos (by norm_num : |(0 : ℚ)| < 5)]
    rw [ht]
  · intro order latestRows previousRows d hd hp
    rw [comparisonList, List.mem_filterMap] at hd
    obtain ⟨name, hname, hmk⟩ := hd
    rcases h1 : dictLookup latestRows name with _ | lrow
    · rw [h1] at hmk; exact absurd hmk (by simp)
    rcases h2 : dictLookup previousRows name with _ | prow
    · rw [h1, h2] at hmk; exact absurd hmk (by simp)
    rw [h1, h2] at hmk
    have hd' : d = mkDiff name lrow prow := by
      have := hmk
      simp only [Option.some.injEq] at this
      exact this.symm
    have hprow : prow.value = 0 := by
      rw [hd'] at hp
      exact hp
    rw [hd']
    constructor
    · have hfield : (mkDiff name lrow prow).percentChange = pctChange lrow.value prow.value := rfl
      rw [hfield, hprow, hpc0]
    · have hfield : (mkDiff name lrow prow).changeType =
        changeTypeOf (lrow.value - prow.value) (pctChange lrow.value prow.value) := rfl
      rw [hfield, hprow, hpc0]
      unfold changeTypeOf
      rw [if_pos (by norm_num : |(0 : ℚ)| < 5)]

/-- Witness for C3: a history whose previous value is `0`. -/
theorem claim_C3_zero_previous_guard_witness :
    pctChange 42 0 = 0 ∧
    get_test_trends
      [⟨"u", "Glucose", 0, "mg/dL", 70, 99, "Low", 0⟩,
       ⟨"u", "Glucose", 50, "mg/dL", 70, 99, "Low", 1⟩] "u" "Glucose" 12 0 =
      .analysis "stable" 50 0 50 0 [0, 50] [0, 1] "mg/dL" 70 99 2 12 := by
  constructor
  · exact claim_C3_zero_previous_guard.1 42
  · have h := claim_C3_zero_previous_guard.2.1
      [⟨"u", "Glucose", 0, "mg/dL", 70, 99, "Low", 0⟩,
       ⟨"u", "Glucose", 50, "mg/dL", 70, 99, "Low", 1⟩] "u" "Glucose" 12 0
      ⟨"u", "Glucose", 0, "mg/dL", 70, 99, "Low", 0⟩
      ⟨"u", "Glucose", 50, "mg/dL", 70, 99, "Low", 1⟩ []
      ⟨"u", "Glucose", 0, "mg/dL", 70, 99, "Low", 0⟩
      ⟨"u", "Glucose", 50, "mg/dL", 70, 99, "Low", 1⟩ (by decide) rfl rfl
    rw [h]
    rfl

/-- C1: classification against the reference band is boundary-inclusive:
`statusShort` is `"Low"` exactly when `v < low`, `"High"` exactly when
`v > high`, `"Normal"` otherwise, so both `v = low` and `v = high` are
classified `"Normal"`. -/
theorem claim_C1_classifier_boundaries (low high v : ℚ) (h : low ≤ high) :
    (statusShort v low high = "Low" ↔ v < low) ∧
    (statusShort v low high = "High" ↔ v > high) ∧
    (statusShort v low high = "Normal" ↔ low ≤ v ∧ v ≤ high) ∧
    statusShort low low high = "Normal" ∧ statusShort high low high = "Normal" := by
  have hb1 : statusShort low low high = "Normal" := by
    unfold statusShort; rw [if_neg (lt_irrefl low), if_neg (not_lt.mpr h)]
  have hb2 : statusShort high low high = "Normal" := by
    unfold statusShort; rw [if_neg (not_lt.mpr h), if_neg (lt_irrefl high)]
  refine ⟨?_, ?_, ?_, hb1, hb2⟩ <;> by_cases hv : v < low
  · have hs : statusShort v low high = "Low" := by unfold statusShort; rw [if_pos hv]
    rw [hs]; exact iff_of_true rfl hv
  · by_cases hg : v > high
    · have hs : statusShort v low high = "High" := by
        unfold statusShort; rw [if_neg hv, if_pos hg]
      rw [hs]; exact iff_of_false (by decide) hv
    · have hs : statusShort v low high = "Normal" := by
        unfold statusShort; rw [if_neg hv, if_neg hg]
      rw [hs]; exact iff_of_false (by decide) hv
  · have hg : ¬ v > high := not_lt.mpr (le_of_lt (lt_of_lt_of_le hv h))
    have hs : statusShort v low high = "Low" := by unfold statusShort; rw [if_pos hv]
    rw [hs]; exact iff_of_false (by decide) hg
  · by_cases hg : v > high
    · have hs : statusShort v low high = "High" := by
        unfold statusShort; rw [if_neg hv, if_pos hg]
      rw [hs]; exact iff_of_true rfl hg
    · have hs : statusShort v low high = "Normal" := by
        unfold statusShort; rw [if_neg hv, if_neg hg]
      rw [hs]; exact iff_of_false (by decide) hg
  · have hg : ¬ v > high := not_lt.mpr (le_of_lt (lt_of_lt_of_le hv h))
    have hs : statusShort v low high = "Low" := by unfold statusShort; rw [if_pos hv]
    rw [hs]
    exact iff_of_false (by decide) (fun hc => absurd hv (not_lt.mpr hc.1))
  · by_cases hg : v > high
    · have hs : statusShort v low high = "High" := by
        unfold statusShort; rw [if_neg hv, if_pos hg]
      rw [hs]
      exact iff_of_false (by decide) (fun hc => absurd hg (not_lt.mpr hc.2))
    · have hs : statusShort v low high = "Normal" := by
        unfold statusShort; rw [if_neg hv, if_neg hg]
      rw [hs]; exact iff_of_true rfl ⟨not_lt.mp hv, not_lt.mp hg⟩

/-- Witness for C1 at a concrete band and value. -/
theorem claim_C1_classifier_boundaries_witness :
    (statusShort 5 (70 : ℚ) 99 = "Low" ↔ (5 : ℚ) < 70) ∧
    (statusShort 5 (70 : ℚ) 99 = "High" ↔ (5 : ℚ) > 99) ∧
    (statusShort 5 (70 : ℚ) 99 = "Normal" ↔ (70 : ℚ) ≤ 5 ∧ (5 : ℚ) ≤ 99) ∧
    statusShort 70 (70 : ℚ) 99 = "Normal" ∧ statusShort 99 (70 : ℚ) 99 = "Normal" :=
  claim_C1_classifier_boundaries 70 99 5 (by norm_num)

/-- C10: for the one-sided special-cased measurements the advisory message does
not track `statusShort` on the unchecked side: HDL above its high bound and
eGFR above its high bound get `statusShort = "High"` with the "Normal" message,
and LDL below its low bound gets `statusShort = "Low"` with the "Normal"
message. -/
theorem claim_C10_one_sided_messages (ref : Ref) (v w u : ℚ) (h : ref.low ≤ ref.high) :
    (ref.high < v →
      get_status_message "HDL" v ref = "Normal – Good cholesterol levels are adequate." ∧
      statusShort v ref.low ref.high = "High") ∧
    (ref.high < w →
      get_status_message "eGFR" w ref = "Normal – Kidney function appears normal." ∧
      statusShort w ref.low ref.high = "High") ∧
    (u < ref.low →
      get_status_message "LDL" u ref = "Normal – Bad cholesterol is within healthy range." ∧
      statusShort u ref.low ref.high = "Low") := by
  refine ⟨?_, ?_, ?_⟩
  · intro hv
    have hnl : ¬ v < ref.low := not_lt.mpr (le_trans h (le_of_lt hv))
    constructor
    · simp [get_status_message, hnl]
    · unfold statusShort
      rw [if_neg hnl, if_pos hv]
  · intro hw
    have hnl : ¬ w < ref.low := not_lt.mpr (le_trans h (le_of_lt hw))
    constructor
    · simp [get_status_message, hnl]
    · unfold statusShort
      rw [if_neg hnl, if_pos hw]
  · intro hu
    have hnh : ¬ u > ref.high := not_lt.mpr (le_trans (le_of_lt hu) h)
    constructor
    · simp [get_status_message, hnh]
    · unfold statusShort
      rw [if_pos hu]

/-- Witness for C10 at a concrete band and values. -/
theorem claim_C10_one_sided_messages_witness :
    ((40 : ℚ) < 90 →
      get_status_message "HDL" 90 ⟨40, 40, "mg/dL"⟩ = "Normal – Good cholesterol levels are adequate." ∧
      statusShort 90 (40 : ℚ) 40 = "High") ∧
    ((40 : ℚ) < 80 →
      get_status_message "eGFR" 80 ⟨40, 40, "mg/dL"⟩ = "Normal – Kidney function appears normal." ∧
      statusShort 80 (40 : ℚ) 40 = "High") ∧
    ((10 : ℚ) < 40 →
      get_status_message "LDL" 10 ⟨40, 40, "mg/dL"⟩ = "Normal – Bad cholesterol is within healthy range." ∧
      statusShort 10 (40 : ℚ) 40 = "Low") :=
  claim_C10_one_sided_messages ⟨40, 40, "mg/dL"⟩ 90 80 10 (by norm_num)

/-! ## Helper lemmas about the comparison engine -/

theorem mkDiff_testName (name : String) (l p : ResultRow) :
    (mkDiff name l p).testName = name := rfl

theorem mkDiff_change (name : String) (l p : ResultRow) :
    (mkDiff name l p).change = l.value - p.value := rfl

theorem mkDiff_percentChange (name : String) (l p : ResultRow) :
    (mkDiff name l p).percentChange = pctChange l.value p.value := rfl

theorem mkDiff_changeType (name : String) (l p : ResultRow) :
    (mkDiff name l p).changeType =
      changeTypeOf (l.value - p.value) (pctChange l.value p.value) := rfl

theorem mkDiff_isImprovement (name : String) (l p : ResultRow) :
    (mkDiff name l p).isImprovement = isImprovementOf name (l.value - p.value) := rfl

theorem mem_comparisonList {order : List String} {lr pr : List ResultRow} {d : DiffRecord}
    (hd : d ∈ comparisonList order lr pr) :
    ∃ name lrow prow, name ∈ order ∧ dictLookup lr name = some lrow ∧
      dictLookup pr name = some prow ∧ d = mkDiff name lrow prow := by
  unfold comparisonList at hd
  rw [List.mem_filterMap] at hd
  obtain ⟨name, hname, hmk⟩ := hd
  cases h1 : dictLookup lr name with
  | none => rw [h1] at hmk; simp at hmk
  | some lrow =>
    cases h2 : dictLookup pr name with
    | none => rw [h1, h2] at hmk; simp at hmk
    | some prow =>
      rw [h1, h2] at hmk
      simp only [Option.some.injEq] at hmk
      exact ⟨name, lrow, prow, hname, h1, h2, hmk.symm⟩

theorem compare_latest_tests_eq {sessions : List SessionRow} {resultsDb : List ResultRow}
    {userId : String} {order : List String} {latestS prevS : SessionRow} {rest : List SessionRow}
    (h : (sortDescBy (fun s => s.createdAt) (sessions.filter (fun s => s.userId == userId))).take 2
      = latestS :: prevS :: rest) :
    compare_latest_tests sessions resultsDb userId order =
      .comparison latestS.createdAt prevS.createdAt (latestS.createdAt - prevS.createdAt)
        (overallTrendOf
          (countImprovements (comparisonList order (latestRowsOf resultsDb userId latestS.createdAt)
            (previousRowsOf resultsDb userId prevS.createdAt latestS.createdAt)))
          (countDeteriorations (comparisonList order (latestRowsOf resultsDb userId latestS.createdAt)
            (previousRowsOf resultsDb userId prevS.createdAt latestS.createdAt))))
        (countImprovements (comparisonList order (latestRowsOf resultsDb userId latestS.createdAt)
          (previousRowsOf resultsDb userId prevS.createdAt latestS.createdAt)))
        (countDeteriorations (comparisonList order (latestRowsOf resultsDb userId latestS.createdAt)
          (previousRowsOf resultsDb userId prevS.createdAt latestS.createdAt)))
        (countStable (comparisonList order (latestRowsOf resultsDb userId latestS.createdAt)
          (previousRowsOf resultsDb userId prevS.createdAt latestS.createdAt)))
        (comparisonList order (latestRowsOf resultsDb userId latestS.createdAt)
          (previousRowsOf resultsDb userId prevS.createdAt latestS.createdAt)).length
        (sortDescBy (fun d => |d.percentChange|)
          (comparisonList order (latestRowsOf resultsDb userId latestS.createdAt)
            (previousRowsOf resultsDb userId prevS.createdAt latestS.createdAt))) := by
  simp only [compare_latest_tests, h]

theorem compare_latest_tests_few {sessions : List SessionRow} {resultsDb : List ResultRow}
    {userId : String} {order : List String}
    (h : (sessions.filter (fun s => s.userId == userId)).length < 2) :
    compare_latest_tests sessions resultsDb userId order = .noComparison := by
  have hlen : (sortDescBy (fun s => s.createdAt)
      (sessions.filter (fun s => s.userId == userId))).length < 2 := by
    rw [(sortDescBy_perm (fun s : SessionRow => s.createdAt)
      (sessions.filter (fun s => s.userId == userId))).length_eq]
    exact h
  rcases hS : sortDescBy (fun s => s.createdAt) (sessions.filter (fun s => s.userId == userId))
    with _ | ⟨a, _ | ⟨b, t⟩⟩
  · simp [compare_latest_tests, hS]
  · simp [compare_latest_tests, hS]
  · rw [hS] at hlen
    simp at hlen
    omega

/-- Inversion of a successful comparison: the verdict rule, the three counters
as counts over the emitted diff list, the descending-|percent| sortedness, and
the shape of every diff record. -/
theorem compare_comparison_inv {sessions : List SessionRow} {resultsDb : List ResultRow}
    {userId : String} {order : List String} {ld pd dB : ℤ} {overall : String}
    {imp det stb tot : Nat} {diffs : List DiffRecord}
    (hEq : compare_latest_tests sessions resultsDb userId order =
      .comparison ld pd dB overall imp det stb tot diffs) :
    overall = (if det < imp then "improving" else if imp < det then "concerning" else "mixed") ∧
    imp = (diffs.filter (fun d => d.changeType != "stable" && d.isImprovement)).length ∧
    det = (diffs.filter (fun d => d.changeType != "stable" && !d.isImprovement)).length ∧
    stb = (diffs.filter (fun d => d.changeType == "stable")).length ∧
    List.Pairwise (fun a b => |b.percentChange| ≤ |a.percentChange|) diffs ∧
    (∀ d ∈ diffs, ∃ name lrow prow, name ∈ order ∧ d = mkDiff name lrow prow) := by
  rcases hS : sortDescBy (fun s => s.createdAt) (sessions.filter (fun s => s.userId == userId))
    with _ | ⟨a, _ | ⟨b, t⟩⟩
  · have hnone : compare_latest_tests sessions resultsDb userId order = .noComparison := by
      simp [compare_latest_tests, hS]
    rw [hnone] at hEq
    exact absurd hEq (by simp)
  · have hnone : compare_latest_tests sessions resultsDb userId order = .noComparison := by
      simp [compare_latest_tests, hS]
    rw [hnone] at hEq
    exact absurd hEq (by simp)
  · have hT : (sortDescBy (fun s => s.createdAt)
        (sessions.filter (fun s => s.userId == userId))).take 2 = a :: b :: [] := by
      rw [hS]; rfl
    have hC := @compare_latest_tests_eq _ resultsDb _ order _ _ _ hT
    have h9 := hC.symm.trans hEq
    rw [CompareResult.comparison.injEq] at h9
    obtain ⟨e1, e2, e3, e4, e5, e6, e7, e8, e9⟩ := h9
    subst e4 e5 e6 e7 e9
    have hperm := sortDescBy_perm (fun d : DiffRecord => |d.percentChange|)
      (comparisonList order (latestRowsOf resultsDb userId a.createdAt)
        (previousRowsOf resultsDb userId b.createdAt a.createdAt))
    refine ⟨rfl, ?_, ?_, ?_, sortDescBy_sorted _ _, ?_⟩
    · exact ((hperm.filter (fun d => d.changeType != "stable" && d.isImprovement)).length_eq).symm
    · exact ((hperm.filter (fun d => d.changeType != "stable" && !d.isImprovement)).length_eq).symm
    · exact ((hperm.filter (fun d => d.changeType == "stable")).length_eq).symm
    · intro d hd
      have hd0 := hperm.mem_iff.mp hd
      obtain ⟨name, lrow, prow, hname, _, _, hdeq⟩ := mem_comparisonList hd0
      exact ⟨name, lrow, prow, hname, hdeq⟩

/-- Sign analysis of `x / q * 100` for positive `q`. -/
theorem div_mul_sign (x q : ℚ) (hq : 0 < q) :
    (0 < x / q * 100 ↔ 0 < x) ∧ (x / q * 100 = 0 ↔ x = 0) ∧ (x / q * 100 < 0 ↔ x < 0) := by
  have hc : (0 : ℚ) < 100 / q := by positivity
  have hx : x / q * 100 = x * (100 / q) := by ring
  rw [hx]
  refine ⟨?_, ?_, ?_⟩
  · rw [mul_pos_iff]
    constructor
    · rintro (⟨h1, _⟩ | ⟨_, h2⟩)
      · exact h1
      · exact absurd h2 (not_lt.mpr hc.le)
    · intro h1
      exact Or.inl ⟨h1, hc⟩
  · rw [mul_eq_zero]
    constructor
    · rintro (h1 | h2)
      · exact h1
      · exact absurd h2 hc.ne'
    · exact Or.inl
  · rw [mul_neg_iff]
    constructor
    · rintro (⟨_, h2⟩ | ⟨h1, _⟩)
      · exact absurd h2 (not_lt.mpr hc.le)
      · exact h1
    · intro h1
      exact Or.inr ⟨h1, hc⟩

/-- Any duplicate-free enumeration of `{A, B}` is a valid iteration order of the
common-test set for the fixture sessions. -/
theorem validOrder_C8 (o : List String) (hnd : o.Nodup)
    (hiff : ∀ name, name ∈ o ↔ (name = "A" ∨ name = "B")) :
    validOrder o [rowA1, rowB1] [rowA0, rowB0] := by
  refine ⟨hnd, fun name => ?_⟩
  rw [hiff name]
  constructor
  · rintro (rfl | rfl)
    · exact ⟨by decide, by decide⟩
    · exact ⟨by decide, by decide⟩
  · rintro ⟨h1, _⟩
    by_contra hno
    rw [not_or] at hno
    have e1 : ("A" == name) = false := by
      rw [beq_eq_false_iff_ne]
      exact fun hc => hno.1 hc.symm
    have e2 : ("B" == name) = false := by
      rw [beq_eq_false_iff_ne]
      exact fun hc => hno.2 hc.symm
    have hf : List.filter (fun r => r.testName == name) [rowA1, rowB1] = [] := by
      simp [rowA1, rowB1, List.filter, e1, e2]
    have hnone : dictLookup [rowA1, rowB1] name = none := by
      unfold dictLookup
      rw [hf]
      rfl
    rw [hnone] at h1
    exact absurd h1 (by simp)

/-- C5 fails on the code: with values 100 (session A) and 105 (session B) for
one shared measurement, the forward comparison (B latest) has
changePercent = 5 and is classified "increased", while the swapped comparison
(A latest) has changePercent = -100/21, whose magnitude differs from 5 and
which is classified "stable": the swap neither preserves `|changePercent|` nor
the 5% classification. -/
theorem claim_C5_counterexample :
    (mkDiff "Glucose" ⟨"u", "Glucose", 105, "mg/dL", 70, 99, "High", 1⟩
      ⟨"u", "Glucose", 100, "mg/dL", 70, 99, "High", 0⟩).percentChange = 5 ∧
    (mkDiff "Glucose" ⟨"u", "Glucose", 105, "mg/dL", 70, 99, "High", 1⟩
      ⟨"u", "Glucose", 100, "mg/dL", 70, 99, "High", 0⟩).changeType = "increased" ∧
    (mkDiff "Glucose" ⟨"u", "Glucose", 100, "mg/dL", 70, 99, "High", 0⟩
      ⟨"u", "Glucose", 105, "mg/dL", 70, 99, "High", 1⟩).percentChange = -100 / 21 ∧
    (mkDiff "Glucose" ⟨"u", "Glucose", 100, "mg/dL", 70, 99, "High", 0⟩
      ⟨"u", "Glucose", 105, "mg/dL", 70, 99, "High", 1⟩).changeType = "stable" ∧
    ¬ (|(5 : ℚ)| = |(-100 / 21 : ℚ)|) := by
  have habs : |(100 / 21 : ℚ)| = 100 / 21 := abs_of_nonneg (by norm_num)
  refine ⟨?_, ?_, ?_, ?_, ?_⟩ <;> norm_num [mkDiff, pctChange, changeTypeOf, habs]

/-- C5 amended: swapping which session is latest inverts the sign of the raw
change and of changePercent (for positive measurement values), but the
magnitudes are |change|/previous·100 versus |change|/latest·100, so
|changePercent| is not preserved in general and the 5% stable classification
can differ between the two directions. -/
theorem claim_C5_amended_swap_inverts_sign (name : String) (l p : ResultRow)
    (hl : 0 < l.value) (hp : 0 < p.value) :
    (mkDiff name l p).change = -((mkDiff name p l).change) ∧
    ((mkDiff name l p).percentChange = 0 ↔ (mkDiff name p l).percentChange = 0) ∧
    (0 < (mkDiff name l p).percentChange ↔ (mkDiff name p l).percentChange < 0) ∧
    ((mkDiff name l p).percentChange < 0 ↔ 0 < (mkDiff name p l).percentChange) := by
  have hfwd : (mkDiff name l p).percentChange = (l.value - p.value) / p.value * 100 := by
    rw [mkDiff_percentChange, pctChange_eq]
  have hbwd : (mkDiff name p l).percentChange = (p.value - l.value) / l.value * 100 := by
    rw [mkDiff_percentChange, pctChange_eq]
  have sfwd := div_mul_sign (l.value - p.value) p.value hp
  have sbwd := div_mul_sign (p.value - l.value) l.value hl
  refine ⟨?_, ?_, ?_, ?_⟩
  · rw [mkDiff_change, mkDiff_change]
    ring
  · rw [hfwd, hbwd, sfwd.2.1, sbwd.2.1]
    constructor <;> intro h <;> linarith
  · rw [hfwd, hbwd, sfwd.1, sbwd.2.2]
    constructor <;> intro h <;> linarith
  · rw [hfwd, hbwd, sfwd.2.2, sbwd.1]
    constructor <;> intro h <;> linarith

/-- Witness for the amended C5 at concrete positive values 4 and 2. -/
theorem claim_C5_amended_swap_inverts_sign_witness :
    (mkDiff "X" ⟨"u", "X", 4, "mg", 0, 10, "Normal", 0⟩
        ⟨"u", "X", 2, "mg", 0, 10, "Normal", 1⟩).change =
      -((mkDiff "X" ⟨"u", "X", 2, "mg", 0, 10, "Normal", 1⟩
        ⟨"u", "X", 4, "mg", 0, 10, "Normal", 0⟩).change) ∧
    ((mkDiff "X" ⟨"u", "X", 4, "mg", 0, 10, "Normal", 0⟩
        ⟨"u", "X", 2, "mg", 0, 10, "Normal", 1⟩).percentChange = 0 ↔
      (mkDiff "X" ⟨"u", "X", 2, "mg", 0, 10, "Normal", 1⟩
        ⟨"u", "X", 4, "mg", 0, 10, "Normal", 0⟩).percentChange = 0) ∧
    (0 < (mkDiff "X" ⟨"u", "X", 4, "mg", 0, 10, "Normal", 0⟩
        ⟨"u", "X", 2, "mg", 0, 10, "Normal", 1⟩).percentChange ↔
      (mkDiff "X" ⟨"u", "X", 2, "mg", 0, 10, "Normal", 1⟩
        ⟨"u", "X", 4, "mg", 0, 10, "Normal", 0⟩).percentChange < 0) ∧
    ((mkDiff "X" ⟨"u", "X", 4, "mg", 0, 10, "Normal", 0⟩
        ⟨"u", "X", 2, "mg", 0, 10, "Normal", 1⟩).percentChange < 0 ↔
      0 < (mkDiff "X" ⟨"u", "X", 2, "mg", 0, 10, "Normal", 1⟩
        ⟨"u", "X", 4, "mg", 0, 10, "Normal", 0⟩).percentChange) :=
  claim_C5_amended_swap_inverts_sign "X" ⟨"u", "X", 4, "mg", 0, 10, "Normal", 0⟩
    ⟨"u", "X", 2, "mg", 0, 10, "Normal", 1⟩ (by norm_num) (by norm_num)

/-- C6: the comparison returns no comparison whenever the user has fewer than
two stored sessions; with two or more the result is a comparison whose overall
verdict is improving when improvements > deteriorations, concerning when
deteriorations > improvements, and mixed otherwise, where the improvement and
deterioration counters count only non-stable diffs (stable changes count toward
neither). -/
theorem claim_C6_overall_verdict (sessions : List SessionRow) (resultsDb : List ResultRow)
    (userId : String) (order : List String) :
    ((sessions.filter (fun s => s.userId == userId)).length < 2 →
      compare_latest_tests sessions resultsDb userId order = .noComparison) ∧
    (2 ≤ (sessions.filter (fun s => s.userId == userId)).length →
      compare_latest_tests sessions resultsDb userId order ≠ .noComparison) ∧
    (∀ (ld pd dB : ℤ) (overall : String) (imp det stb tot : Nat) (diffs : List DiffRecord),
      compare_latest_tests sessions resultsDb userId order =
        .comparison ld pd dB overall imp det stb tot diffs →
      overall = (if det < imp then "improving" else if imp < det then "concerning" else "mixed") ∧
      imp = (diffs.filter (fun d => d.changeType != "stable" && d.isImprovement)).length ∧
      det = (diffs.filter (fun d => d.changeType != "stable" && !d.isImprovement)).length ∧
      stb = (diffs.filter (fun d => d.changeType == "stable")).length) := by
  refine ⟨fun h => compare_latest_tests_few h, ?_, ?_⟩
  · intro h2
    have hlen : 2 ≤ (sortDescBy (fun s : SessionRow => s.createdAt)
        (sessions.filter (fun s => s.userId == userId))).length := by
      rw [(sortDescBy_perm (fun s : SessionRow => s.createdAt)
        (sessions.filter (fun s => s.userId == userId))).length_eq]
      exact h2
    rcases hS : sortDescBy (fun s : SessionRow => s.createdAt)
        (sessions.filter (fun s => s.userId == userId)) with _ | ⟨a, _ | ⟨b, t⟩⟩
    · rw [hS] at hlen
      simp at hlen
    · rw [hS] at hlen
      simp at hlen
    · have hT : (sortDescBy (fun s : SessionRow => s.createdAt)
          (sessions.filter (fun s => s.userId == userId))).take 2 = a :: b :: [] := by
        rw [hS]
        rfl
      rw [@compare_latest_tests_eq _ resultsDb _ order _ _ _ hT]
      simp
  · intro ld pd dB overall imp det stb tot diffs hEq
    have h := compare_comparison_inv hEq
    exact ⟨h.1, h.2.1, h.2.2.1, h.2.2.2.1⟩

/-- Witness for C6: a user with no stored sessions gets no comparison. -/
theorem claim_C6_overall_verdict_witness :
    (([] : List SessionRow).filter (fun s => s.userId == "u")).length < 2 ∧
    compare_latest_tests [] [] "u" [] = .noComparison :=
  ⟨by decide, (claim_C6_overall_verdict [] [] "u" []).1 (by decide)⟩

/-- C9: a non-stable shared measurement whose name is not one of the six
favourable-direction measurements always has `is_improvement = false` and is
counted as a deterioration; it can never contribute to the improvements count,
which counts only non-stable diffs with `is_improvement = true`. -/
theorem claim_C9_unlisted_measurements (sessions : List SessionRow) (resultsDb : List ResultRow)
    (userId : String) (order : List String) :
    (∀ (name : String) (change : ℚ), name ∉ lowerIsBetter → name ≠ "HDL" →
      isImprovementOf name change = false) ∧
    (∀ (ld pd dB : ℤ) (overall : String) (imp det stb tot : Nat) (diffs : List DiffRecord),
      compare_latest_tests sessions resultsDb userId order =
        .comparison ld pd dB overall imp det stb tot diffs →
      (∀ d ∈ diffs,
        d.testName ∉ ["Total Cholesterol", "LDL", "Triglycerides", "Glucose", "HbA1c", "HDL"] →
        d.isImprovement = false) ∧
      imp = (diffs.filter (fun d => d.changeType != "stable" && d.isImprovement)).length ∧
      det = (diffs.filter (fun d => d.changeType != "stable" && !d.isImprovement)).length) := by
  have hfalse : ∀ (name : String) (change : ℚ), name ∉ lowerIsBetter → name ≠ "HDL" →
      isImprovementOf name change = false := by
    intro name change h5 hH
    unfold isImprovementOf
    rw [if_neg h5, if_neg hH]
  refine ⟨hfalse, ?_⟩
  intro ld pd dB overall imp det stb tot diffs hEq
  have h := compare_comparison_inv hEq
  refine ⟨?_, h.2.1, h.2.2.1⟩
  intro d hd hmem6
  obtain ⟨name, lrow, prow, hname, hdeq⟩ := h.2.2.2.2.2 d hd
  have hn : d.testName = name := by
    rw [hdeq]
    rfl
  have h5 : name ∉ lowerIsBetter := by
    intro hc
    apply hmem6
    rw [hn]
    simp only [lowerIsBetter, List.mem_cons, List.not_mem_nil, or_false] at hc ⊢
    tauto
  have hH : name ≠ "HDL" := by
    intro hc
    apply hmem6
    rw [hn, hc]
    simp
  rw [hdeq, mkDiff_isImprovement]
  exact hfalse name _ h5 hH

/-- Witness for C9 at a measurement outside the favourable-direction table. -/
theorem claim_C9_unlisted_measurements_witness :
    "WBC" ∉ lowerIsBetter ∧ "WBC" ≠ "HDL" ∧ isImprovementOf "WBC" 10 = false :=
  ⟨by decide, by decide,
    (claim_C9_unlisted_measurements [] [] "u" []).1 "WBC" 10 (by decide) (by decide)⟩

/-- C8 fails on the code: with the same stored sessions and results, two runs
that iterate the tied common-test set `{A, B}` in the two different orders a
Python string set may produce yield the tied diff records in different
sequences, so the output order is not determined by the stored data alone. -/
theorem claim_C8_counterexample :
    validOrder ["A", "B"] [rowA1, rowB1] [rowA0, rowB0] ∧
    validOrder ["B", "A"] [rowA1, rowB1] [rowA0, rowB0] ∧
    latestRowsOf [rowA0, rowB0, rowA1, rowB1] "u" 1 = [rowA1, rowB1] ∧
    previousRowsOf [rowA0, rowB0, rowA1, rowB1] "u" 0 1 = [rowA0, rowB0] ∧
    (comparisonsOf (compare_latest_tests [⟨"u", 0⟩, ⟨"u", 1⟩] [rowA0, rowB0, rowA1, rowB1]
      "u" ["A", "B"])).map (fun d => d.testName) = ["A", "B"] ∧
    (comparisonsOf (compare_latest_tests [⟨"u", 0⟩, ⟨"u", 1⟩] [rowA0, rowB0, rowA1, rowB1]
      "u" ["B", "A"])).map (fun d => d.testName) = ["B", "A"] ∧
    (["A", "B"] : List String) ≠ ["B", "A"] := by
  have hcmpAB : |(mkDiff "B" rowB1 rowB0).percentChange| ≤
      |(mkDiff "A" rowA1 rowA0).percentChange| := by
    norm_num [mkDiff, pctChange, rowA0, rowA1, rowB0, rowB1]
  have hcmpBA : |(mkDiff "A" rowA1 rowA0).percentChange| ≤
      |(mkDiff "B" rowB1 rowB0).percentChange| := by
    norm_num [mkDiff, pctChange, rowA0, rowA1, rowB0, rowB1]
  have hsortAB : sortDescBy (fun d => |d.percentChange|)
      [mkDiff "A" rowA1 rowA0, mkDiff "B" rowB1 rowB0] =
      [mkDiff "A" rowA1 rowA0, mkDiff "B" rowB1 rowB0] := by
    unfold sortDescBy
    simp only [List.foldl, insertDescBy]
    rw [if_pos hcmpAB]
  have hsortBA : sortDescBy (fun d => |d.percentChange|)
      [mkDiff "B" rowB1 rowB0, mkDiff "A" rowA1 rowA0] =
      [mkDiff "B" rowB1 rowB0, mkDiff "A" rowA1 rowA0] := by
    unfold sortDescBy
    simp only [List.foldl, insertDescBy]
    rw [if_pos hcmpBA]
  have hT : (sortDescBy (fun s : SessionRow => s.createdAt)
      (([⟨"u", 0⟩, ⟨"u", 1⟩] : List SessionRow).filter (fun s => s.userId == "u"))).take 2 =
      (⟨"u", 1⟩ : SessionRow) :: (⟨"u", 0⟩ : SessionRow) :: [] := by
    decide
  refine ⟨validOrder_C8 _ (by decide) (fun name => by simp),
    validOrder_C8 _ (by decide) (fun name => by simp; tauto),
    by decide, by decide, ?_, ?_, by decide⟩
  · rw [@compare_latest_tests_eq _ [rowA0, rowB0, rowA1, rowB1] _ ["A", "B"] _ _ _ hT]
    show (sortDescBy (fun d => |d.percentChange|)
      [mkDiff "A" rowA1 rowA0, mkDiff "B" rowB1 rowB0]).map (fun d => d.testName) = ["A", "B"]
    rw [hsortAB]
    rfl
  · rw [@compare_latest_tests_eq _ [rowA0, rowB0, rowA1, rowB1] _ ["B", "A"] _ _ _ hT]
    show (sortDescBy (fun d => |d.percentChange|)
      [mkDiff "B" rowB1 rowB0, mkDiff "A" rowA1 rowA0]).map (fun d => d.testName) = ["B", "A"]
    rw [hsortBA]
    rfl

/-- C8 amended: the emitted diff list is sorted by descending |changePercent|,
and the output is a deterministic function of the stored data together with the
iteration order of the common-test set; only the relative order of tied entries
depends on that set order, which Python does not fix across processes. -/
theorem claim_C8_amended_sorted_diffs (sessions : List SessionRow) (resultsDb : List ResultRow)
    (userId : String) (order : List String) :
    ∀ (ld pd dB : ℤ) (overall : String) (imp det stb tot : Nat) (diffs : List DiffRecord),
      compare_latest_tests sessions resultsDb userId order =
        .comparison ld pd dB overall imp det stb tot diffs →
      List.Pairwise (fun a b => |b.percentChange| ≤ |a.percentChange|) diffs := by
  intro ld pd dB overall imp det stb tot diffs hEq
  exact (compare_comparison_inv hEq).2.2.2.2.1

/-- Witness for the amended C8 at a concrete two-session history. -/
theorem claim_C8_amended_sorted_diffs_witness :
    compare_latest_tests [⟨"u", 0⟩, ⟨"u", 1⟩] [] "u" [] =
      .comparison 1 0 1 "mixed" 0 0 0 0 [] ∧
    List.Pairwise (fun a b : DiffRecord => |b.percentChange| ≤ |a.percentChange|)
      ([] : List DiffRecord) := by
  have hEq : compare_latest_tests [⟨"u", 0⟩, ⟨"u", 1⟩] [] "u" [] =
      .comparison 1 0 1 "mixed" 0 0 0 0 [] := by decide
  exact ⟨hEq, claim_C8_amended_sorted_diffs _ _ _ _ 1 0 1 "mixed" 0 0 0 0 [] hEq⟩

/-- C4: panel parsing over the whole catalog skips failed extractions without
aborting (the successful results are exactly the catalog-ordered extraction
successes), raises the "no measurements found" failure exactly when zero
catalog entries yield a value, and in the analyze flow that failure leaves the
stored history unchanged (storage happens only after parsing succeeds). -/
theorem claim_C4_panel_failure (text : String) (catalog : List (String × Ref))
    (db : List (List ExtractedValue)) (h : textIsBlank text = false) :
    (parse_blood_tests text catalog =
        .error "No blood test values could be extracted from the document" ↔
      ∀ entry ∈ catalog, parse_test_value text entry.1 = none) ∧
    (∀ results, parse_blood_tests text catalog = .ok results →
      results = catalog.filterMap (fun entry =>
        match parse_test_value text entry.1 with
        | some v => some ⟨entry.1, v, entry.2.unit, entry.2.low, entry.2.high,
            get_status_message entry.1 v entry.2, statusShort v entry.2.low entry.2.high⟩
        | none => none)) ∧
    (parse_blood_tests text catalog =
        .error "No blood test values could be extracted from the document" →
      analyze_pdf_flow text catalog db =
        (.error "No blood test values could be extracted from the document", db)) := by
  have hnb : ¬ (textIsBlank text = true) := by
    rw [h]
    exact Bool.false_ne_true
  have hpb : parse_blood_tests text catalog =
      (if (catalog.filterMap (fun entry =>
          match parse_test_value text entry.1 with
          | some v => some (⟨entry.1, v, entry.2.unit, entry.2.low, entry.2.high,
              get_status_message entry.1 v entry.2,
              statusShort v entry.2.low entry.2.high⟩ : ExtractedValue)
          | none => none)).length = 0 then
        .error "No blood test values could be extracted from the document"
      else .ok (catalog.filterMap (fun entry =>
          match parse_test_value text entry.1 with
          | some v => some (⟨entry.1, v, entry.2.unit, entry.2.low, entry.2.high,
              get_status_message entry.1 v entry.2,
              statusShort v entry.2.low entry.2.high⟩ : ExtractedValue)
          | none => none))) := by
    unfold parse_blood_tests
    rw [if_neg hnb]
  have hiff : (catalog.filterMap (fun entry =>
      match parse_test_value text entry.1 with
      | some v => some (⟨entry.1, v, entry.2.unit, entry.2.low, entry.2.high,
          get_status_message entry.1 v entry.2,
          statusShort v entry.2.low entry.2.high⟩ : ExtractedValue)
      | none => none)).length = 0 ↔
      ∀ entry ∈ catalog, parse_test_value text entry.1 = none := by
    rw [List.length_eq_zero, List.filterMap_eq_nil_iff]
    constructor
    · intro hf entry hmem
      have := hf entry hmem
      cases hv : parse_test_value text entry.1 with
      | none => rfl
      | some v =>
        rw [hv] at this
        exact absurd this (by simp)
    · intro hall entry hmem
      rw [hall entry hmem]
  refine ⟨?_, ?_, ?_⟩
  · rw [hpb]
    by_cases hz : (catalog.filterMap (fun entry =>
        match parse_test_value text entry.1 with
        | some v => some (⟨entry.1, v, entry.2.unit, entry.2.low, entry.2.high,
            get_status_message entry.1 v entry.2,
            statusShort v entry.2.low entry.2.high⟩ : ExtractedValue)
        | none => none)).length = 0
    · rw [if_pos hz]
      exact iff_of_true rfl (hiff.mp hz)
    · rw [if_neg hz]
      constructor
      · intro hc
        exact absurd hc (by simp)
      · intro hall
        exact absurd (hiff.mpr hall) hz
  · intro results hok
    rw [hpb] at hok
    by_cases hz : (catalog.filterMap (fun entry =>
        match parse_test_value text entry.1 with
        | some v => some (⟨entry.1, v, entry.2.unit, entry.2.low, entry.2.high,
            get_status_message entry.1 v entry.2,
            statusShort v entry.2.low entry.2.high⟩ : ExtractedValue)
        | none => none)).length = 0
    · rw [if_pos hz] at hok
      exact absurd hok (by simp)
    · rw [if_neg hz] at hok
      simp only [Except.ok.injEq] at hok
      exact hok.symm
  · intro herr
    unfold analyze_pdf_flow
    rw [herr]

/-- Witness for C4: a text from which no catalog entry extracts a value. -/
theorem claim_C4_panel_failure_witness :
    textIsBlank "hello" = false ∧
    parse_blood_tests "hello" [("Glucose", ⟨70, 99, "mg/dL"⟩)] =
      .error "No blood test values could be extracted from the document" ∧
    analyze_pdf_flow "hello" [("Glucose", ⟨70, 99, "mg/dL"⟩)] [] =
      (.error "No blood test values could be extracted from the document", []) := by
  have h := claim_C4_panel_failure "hello" [("Glucose", ⟨70, 99, "mg/dL"⟩)] [] (by decide)
  have hall : ∀ entry ∈ ([("Glucose", (⟨70, 99, "mg/dL"⟩ : Ref))] : List (String × Ref)),
      parse_test_value "hello" entry.1 = none := by decide
  have herr := h.1.mpr hall
  exact ⟨by decide, herr, h.2.2 herr⟩

/-! ## Helper lemmas for the value extractor: characters -/

theorem lowerChar_upper_toNat {c : Char} (h : 65 ≤ c.toNat ∧ c.toNat ≤ 90) :
    (lowerChar c).toNat = c.toNat + 32 := by
  unfold lowerChar
  rw [if_pos (by simp only [Bool.and_eq_true, decide_eq_true_eq]; exact h)]
  have hvalid : (c.toNat + 32).isValidChar := Or.inl (by omega)
  unfold Char.ofNat
  rw [dif_pos hvalid]
  rfl

theorem lowerChar_eq_self {c : Char} (h : ¬(65 ≤ c.toNat ∧ c.toNat ≤ 90)) :
    lowerChar c = c := by
  unfold lowerChar
  rw [if_neg (by simp only [Bool.and_eq_true, decide_eq_true_eq]; exact h)]

theorem isDigitChar_bounds {c : Char} (h : isDigitChar c = true) :
    48 ≤ c.toNat ∧ c.toNat ≤ 57 := by
  simpa only [isDigitChar, Bool.and_eq_true, decide_eq_true_eq] using h

theorem digit_ne_char {c d : Char} (h : isDigitChar c = true) (hd : isDigitChar d = false) :
    c ≠ d := by
  intro hc
  rw [hc] at h
  rw [h] at hd
  exact Bool.noConfusion hd

theorem ws_toNat {c : Char} (h : isWsChar c = true) : c.toNat < 48 := by
  unfold isWsChar Char.isWhitespace at h
  simp only [Bool.or_eq_true, decide_eq_true_eq] at h
  rcases h with ((h | h) | h) | h <;> subst h <;> decide

theorem digit_not_ws {c : Char} (h : isDigitChar c = true) : isWsChar c = false := by
  cases hws : isWsChar c
  · rfl
  · have h1 := ws_toNat hws
    have h2 := isDigitChar_bounds h
    omega

theorem isDigitDot_toNat {c : Char} (h : isDigitDot c = true) : c.toNat ≤ 57 := by
  unfold isDigitDot at h
  simp only [Bool.or_eq_true] at h
  rcases h with h | h
  · exact (isDigitChar_bounds h).2
  · rw [beq_iff_eq] at h
    subst h
    decide

theorem lowerChar_of_digitDot {c : Char} (h : isDigitDot c = true) : lowerChar c = c := by
  have := isDigitDot_toNat h
  exact lowerChar_eq_self (by omega)

theorem lcEq_isDigitDot {a b : Char} (h : lcEq a b = true) (hb : isDigitDot b = true) :
    isDigitDot a = true := by
  unfold lcEq at h
  rw [beq_iff_eq] at h
  rw [lowerChar_of_digitDot hb] at h
  by_cases ha : 65 ≤ a.toNat ∧ a.toNat ≤ 90
  · exfalso
    have h1 : (lowerChar a).toNat = a.toNat + 32 := lowerChar_upper_toNat ha
    rw [h] at h1
    have h2 := isDigitDot_toNat hb
    omega
  · rw [lowerChar_eq_self ha] at h
    rw [h]
    exact hb

theorem lcEq_refl (a : Char) : lcEq a a = true := by
  unfold lcEq
  exact beq_self_eq_true _

/-! ## Helper lemmas for the value extractor: lists and prefixes -/

theorem all_of_sublist {p : Char → Bool} {l₁ l₂ : List Char} (hs : l₁.Sublist l₂)
    (h : l₂.all p = true) : l₁.all p = true := by
  rw [List.all_eq_true] at h ⊢
  exact fun x hx => h x (hs.subset hx)

theorem all_drop {p : Char → Bool} {l : List Char} (h : l.all p = true) (n : Nat) :
    (l.drop n).all p = true :=
  all_of_sublist (List.drop_sublist n l) h

theorem all_dropWhile {p q : Char → Bool} {l : List Char} (h : l.all p = true) :
    (l.dropWhile q).all p = true :=
  all_of_sublist (List.dropWhile_sublist q) h

theorem isPrefixCI_length_le {V s : List Char} (h : isPrefixCI V s = true) :
    V.length ≤ s.length := by
  induction V generalizing s with
  | nil => simp
  | cons a as ih =>
    cases s with
    | nil => simp [isPrefixCI] at h
    | cons b bs =>
      simp only [isPrefixCI, Bool.and_eq_true] at h
      exact Nat.succ_le_succ (ih h.2)

theorem isPrefixCI_append_left {V A B : List Char} (h : isPrefixCI V (A ++ B) = true)
    (hlen : V.length ≤ A.length) : isPrefixCI V A = true := by
  induction V generalizing A with
  | nil => rfl
  | cons a as ih =>
    cases A with
    | nil => simp at hlen
    | cons c cs =>
      simp only [List.cons_append, isPrefixCI, Bool.and_eq_true] at h ⊢
      exact ⟨h.1, ih h.2 (by simpa using hlen)⟩

theorem isPrefixCI_append_split {V A B : List Char} (h : isPrefixCI V (A ++ B) = true)
    (hlen : A.length ≤ V.length) :
    isPrefixCI (V.take A.length) A = true ∧ isPrefixCI (V.drop A.length) B = true := by
  induction A generalizing V with
  | nil => exact ⟨rfl, by simpa using h⟩
  | cons c cs ih =>
    cases V with
    | nil => simp at hlen
    | cons a as =>
      simp only [List.cons_append, isPrefixCI, Bool.and_eq_true] at h
      obtain ⟨h1, h2⟩ := h
      have hrec := ih h2 (by simpa using hlen)
      simp only [List.length_cons, List.take_succ_cons, List.drop_succ_cons, isPrefixCI,
        Bool.and_eq_true]
      exact ⟨⟨h1, hrec.1⟩, hrec.2⟩

theorem isPrefixCI_transfer {V s : List Char} (h : isPrefixCI V s = true)
    (hs : s.all isDigitDot = true) : V.all isDigitDot = true := by
  induction V generalizing s with
  | nil => rfl
  | cons a as ih =>
    cases s with
    | nil => simp [isPrefixCI] at h
    | cons b bs =>
      simp only [isPrefixCI, Bool.and_eq_true] at h
      simp only [List.all_cons, Bool.and_eq_true] at hs ⊢
      exact ⟨lcEq_isDigitDot h.1 hs.1, ih h.2 hs.2⟩

theorem isPrefixCI_self_append (V rest : List Char) : isPrefixCI V (V ++ rest) = true := by
  induction V with
  | nil => rfl
  | cons a as ih =>
    simp only [List.cons_append, isPrefixCI, Bool.and_eq_true]
    exact ⟨lcEq_refl a, ih⟩

theorem goodVariant_ne_nil {V P : List Char} (h : goodVariant V P = true) : V ≠ [] := by
  intro hV
  subst hV
  simp [goodVariant] at h

theorem okOccAll_spec {V P : List Char} (h : okOccAll V P = true) (i : Nat) :
    okOcc V (P.drop i) = true := by
  induction P generalizing i with
  | nil => simpa [okOccAll] using h
  | cons c r ih =>
    simp only [okOccAll, Bool.and_eq_true] at h
    cases i with
    | zero => exact h.1
    | succ j => exact ih h.2 j

theorem okOverlapAll_spec {V P : List Char} (h : okOverlapAll V P = true) {i : Nat}
    (hi : i < P.length) : okOverlap V (P.drop i) = true := by
  induction P generalizing i with
  | nil => simp at hi
  | cons c r ih =>
    simp only [okOverlapAll, Bool.and_eq_true] at h
    cases i with
    | zero => exact h.1
    | succ j => exact ih h.2 (by simpa using hi)

theorem takeWhile_eq_self_of_all {p : Char → Bool} {l : List Char} (h : l.all p = true) :
    l.takeWhile p = l := by
  induction l with
  | nil => rfl
  | cons a as ih =>
    simp only [List.all_cons, Bool.and_eq_true] at h
    rw [List.takeWhile_cons_of_pos h.1, ih h.2]

theorem dropWhile_head_false {p : Char → Bool} {l : List Char} {c : Char} {r : List Char}
    (h : l.dropWhile p = c :: r) : p c = false := by
  induction l with
  | nil => simp at h
  | cons b bs ih =>
    by_cases hp : p b = true
    · rw [List.dropWhile_cons_of_pos hp] at h
      exact ih h
    · rw [List.dropWhile_cons_of_neg hp] at h
      cases h
      exact Bool.of_not_eq_true hp

theorem dropWhile_append_head {p : Char → Bool} {A B : List Char}
    (hB : ∀ b, B.head? = some b → p b = false) :
    (A ++ B).dropWhile p = A.dropWhile p ++ B := by
  induction A with
  | nil =>
    simp only [List.nil_append]
    cases B with
    | nil => rfl
    | cons b bs =>
      rw [List.dropWhile_cons_of_neg (by rw [hB b rfl]; exact Bool.false_ne_true),
        List.dropWhile_nil, List.nil_append]
  | cons a as ih =>
    by_cases hp : p a = true
    · rw [List.cons_append, List.dropWhile_cons_of_pos hp, List.dropWhile_cons_of_pos hp, ih]
    · rw [List.cons_append, List.dropWhile_cons_of_neg hp, List.dropWhile_cons_of_neg hp,
        List.cons_append]

/-! ## Helper lemmas for the value extractor: number shape -/

theorem validNum_cases {num : List Char} (h : validNumB num = true) :
    (num ≠ [] ∧ num.all isDigitChar = true) ∨
    (∃ d1 d2, d1 ≠ [] ∧ d1.all isDigitChar = true ∧ d2.all isDigitChar = true ∧
      num = d1 ++ '.' :: d2) := by
  cases num with
  | nil => simp [validNumB] at h
  | cons c rest =>
    simp only [validNumB, Bool.and_eq_true] at h
    obtain ⟨hc, h2⟩ := h
    have hd1all : ((c :: rest).takeWhile isDigitChar).all isDigitChar = true := by
      rw [List.all_eq_true]
      intro x hx
      exact List.mem_takeWhile_imp hx
    have hsplit := List.takeWhile_append_dropWhile isDigitChar (c :: rest)
    have hd1ne : (c :: rest).takeWhile isDigitChar ≠ [] := by
      rw [List.takeWhile_cons_of_pos hc]
      exact List.cons_ne_nil _ _
    rcases hdw : (c :: rest).dropWhile isDigitChar with _ | ⟨d, d2⟩
    · rw [hdw] at h2
      left
      refine ⟨List.cons_ne_nil _ _, ?_⟩
      rw [hdw, List.append_nil] at hsplit
      rw [← hsplit]
      exact hd1all
    · rw [hdw] at h2
      split at h2
      · rename_i heq2
        cases heq2
      · rename_i heq2
        cases heq2
        right
        refine ⟨(c :: rest).takeWhile isDigitChar, d2, hd1ne, hd1all, h2, ?_⟩
        conv_lhs => rw [← hsplit, hdw]
      · exact absurd h2 Bool.false_ne_true

theorem validNum_all {num : List Char} (h : validNumB num = true) :
    num.all isDigitDot = true := by
  have hmono : ∀ l : List Char, l.all isDigitChar = true → l.all isDigitDot = true := by
    intro l hl
    rw [List.all_eq_true] at hl ⊢
    intro x hx
    unfold isDigitDot
    rw [hl x hx]
    rfl
  rcases validNum_cases h with ⟨_, hall⟩ | ⟨d1, d2, _, h1, h2, heq⟩
  · exact hmono _ hall
  · subst heq
    rw [List.all_append, Bool.and_eq_true]
    refine ⟨hmono _ h1, ?_⟩
    rw [List.all_cons, Bool.and_eq_true]
    exact ⟨by decide, hmono _ h2⟩

theorem validNum_head {num : List Char} (h : validNumB num = true) :
    ∃ c rest, num = c :: rest ∧ isDigitChar c = true := by
  cases num with
  | nil => simp [validNumB] at h
  | cons c rest =>
    simp only [validNumB, Bool.and_eq_true] at h
    exact ⟨c, rest, rfl, h.1⟩

theorem captureNum_valid {num : List Char} (h : validNumB num = true) :
    captureNum num = some num := by
  obtain ⟨c, rest, hn, hc⟩ := validNum_head h
  subst hn
  simp only [validNumB, Bool.and_eq_true] at h
  obtain ⟨_, h2⟩ := h
  have hsplit := List.takeWhile_append_dropWhile isDigitChar (c :: rest)
  rcases hdw : (c :: rest).dropWhile isDigitChar with _ | ⟨d, d2⟩
  · rw [hdw, List.append_nil] at hsplit
    simp only [captureNum, hc, if_true, hdw, hsplit]
  · rw [hdw] at h2
    split at h2
    · rename_i heq2
      cases heq2
    · rename_i heq2
      cases heq2
      simp only [captureNum, hc, if_true, hdw]
      rw [takeWhile_eq_self_of_all h2]
      conv_rhs => rw [← hsplit, hdw]
    · exact absurd h2 Bool.false_ne_true

theorem bool_not_true {b : Bool} (h : (!b) = true) : b = false := by
  cases b
  · rfl
  · cases h

theorem captureNum_cons_none {c : Char} {r : List Char} (hc : isDigitChar c = false) :
    captureNum (c :: r) = none := by
  simp [captureNum, hc]

theorem dropWs_append_num {Q num : List Char} (hnum : validNumB num = true) :
    dropWs (Q ++ num) = dropWs Q ++ num := by
  obtain ⟨c, rest, hn, hc⟩ := validNum_head hnum
  subst hn
  unfold dropWs
  apply dropWhile_append_head
  intro b hb
  simp only [List.head?_cons, Option.some.injEq] at hb
  subst hb
  exact digit_not_ws hc

theorem dropWs_cons_of_not_ws {c : Char} {r : List Char} (h : isWsChar c = false) :
    dropWs (c :: r) = c :: r := by
  unfold dropWs
  rw [List.dropWhile_cons_of_neg]
  rw [h]
  exact Bool.false_ne_true

theorem dropWs_head_not_digit {Q : List Char} (hQ : Q.all (fun c => !(isDigitChar c)) = true)
    {q : Char} {Q2 : List Char} (h : dropWs Q = q :: Q2) : isDigitChar q = false := by
  have h1 : (dropWs Q).all (fun c => !(isDigitChar c)) = true := all_dropWhile hQ
  rw [h, List.all_cons, Bool.and_eq_true] at h1
  exact bool_not_true h1.1

theorem dropWs_tail_all {p : Char → Bool} {Q : List Char} (hQ : Q.all p = true)
    {q : Char} {Q2 : List Char} (h : dropWs Q = q :: Q2) : Q2.all p = true := by
  have h1 : (dropWs Q).all p = true := all_dropWhile hQ
  rw [h, List.all_cons, Bool.and_eq_true] at h1
  exact h1.2

theorem digit_not_colon {c : Char} (h : isDigitChar c = true) : (c == ':') = false :=
  beq_eq_false_iff_ne.mpr (digit_ne_char h (by decide))

theorem digit_not_sep {c : Char} (h : isDigitChar c = true) :
    (c == ':' || c == '-' || c == '=') = false := by
  rw [digit_not_colon h, beq_eq_false_iff_ne.mpr (digit_ne_char h (show isDigitChar '-' = false by decide)),
    beq_eq_false_iff_ne.mpr (digit_ne_char h (show isDigitChar '=' = false by decide))]
  rfl

theorem captureNum_dropWs_append {Q num : List Char}
    (hQ : Q.all (fun c => !(isDigitChar c)) = true) (hnum : validNumB num = true) :
    captureNum (dropWs (Q ++ num)) = none ∨ captureNum (dropWs (Q ++ num)) = some num := by
  rw [dropWs_append_num hnum]
  rcases hQd : dropWs Q with _ | ⟨q, Q2⟩
  · rw [List.nil_append]
    exact Or.inr (captureNum_valid hnum)
  · rw [List.cons_append]
    exact Or.inl (captureNum_cons_none (dropWs_head_not_digit hQ hQd))

theorem p1tail_eval {Q num : List Char} (hQ : Q.all (fun c => !(isDigitChar c)) = true)
    (hnum : validNumB num = true) :
    p1tail (Q ++ num) = none ∨ p1tail (Q ++ num) = some num := by
  obtain ⟨n0, nrest, hn, hn0⟩ := validNum_head hnum
  unfold p1tail
  rw [dropWs_append_num hnum]
  rcases hQd : dropWs Q with _ | ⟨q, Q2⟩
  · rw [List.nil_append]
    right
    conv_lhs => rw [hn]
    rw [show stripColon (n0 :: nrest) = n0 :: nrest by
      simp only [stripColon, digit_not_colon hn0]; rfl]
    rw [show dropWs (n0 :: nrest) = n0 :: nrest from dropWs_cons_of_not_ws (digit_not_ws hn0)]
    rw [← hn]
    exact captureNum_valid hnum
  · rw [List.cons_append]
    have hq_nd : isDigitChar q = false := dropWs_head_not_digit hQ hQd
    have hq_nws : isWsChar q = false := dropWhile_head_false hQd
    have hQ2 : Q2.all (fun c => !(isDigitChar c)) = true := dropWs_tail_all hQ hQd
    by_cases hqc : (q == ':') = true
    · rw [show stripColon (q :: (Q2 ++ num)) = Q2 ++ num by
        simp only [stripColon, hqc]; rfl]
      exact captureNum_dropWs_append hQ2 hnum
    · rw [show stripColon (q :: (Q2 ++ num)) = q :: (Q2 ++ num) by
        simp only [stripColon, if_neg hqc]]
      rw [dropWs_cons_of_not_ws hq_nws]
      exact Or.inl (captureNum_cons_none hq_nd)

theorem p2tail_eval {Q num : List Char} (hQ : Q.all (fun c => !(isDigitChar c)) = true)
    (hnum : validNumB num = true) :
    p2tail (Q ++ num) = none ∨ p2tail (Q ++ num) = some num := by
  rcases Q with _ | ⟨q, Q2⟩
  · left
    obtain ⟨n0, nrest, hn, hn0⟩ := validNum_head hnum
    subst hn
    simp only [List.nil_append, p2tail]
    rw [if_neg]
    rw [digit_not_ws hn0]
    exact Bool.false_ne_true
  · rw [List.all_cons, Bool.and_eq_true] at hQ
    simp only [List.cons_append, p2tail]
    by_cases hqws : isWsChar q = true
    · rw [if_pos hqws]
      exact captureNum_dropWs_append hQ.2 hnum
    · rw [if_neg hqws]
      exact Or.inl rfl

theorem p3tail_eval {Q num : List Char} (hQ : Q.all (fun c => !(isDigitChar c)) = true)
    (hnum : validNumB num = true) :
    p3tail (Q ++ num) = none ∨ p3tail (Q ++ num) = some num := by
  induction Q with
  | nil =>
    right
    obtain ⟨n0, nrest, hn, hn0⟩ := validNum_head hnum
    rw [List.nil_append]
    conv_lhs => rw [hn]
    simp only [p3tail, hn0, if_true]
    rw [← hn]
    exact captureNum_valid hnum
  | cons q Q2 ih =>
    rw [List.all_cons, Bool.and_eq_true] at hQ
    simp only [List.cons_append, p3tail]
    rw [if_neg (by rw [bool_not_true hQ.1]; exact Bool.false_ne_true)]
    by_cases hnl : (q == '\n') = true
    · rw [if_pos hnl]
      exact Or.inl rfl
    · rw [if_neg hnl]
      exact ih hQ.2

theorem p3tail_pos {Q num : List Char}
    (hQ : Q.all (fun c => !(isDigitChar c) && !(c == '\n')) = true)
    (hnum : validNumB num = true) :
    p3tail (Q ++ num) = some num := by
  induction Q with
  | nil =>
    obtain ⟨n0, nrest, hn, hn0⟩ := validNum_head hnum
    rw [List.nil_append]
    conv_lhs => rw [hn]
    simp only [p3tail, hn0, if_true]
    rw [← hn]
    exact captureNum_valid hnum
  | cons q Q2 ih =>
    rw [List.all_cons, Bool.and_eq_true] at hQ
    obtain ⟨hq, hQ2⟩ := hQ
    rw [Bool.and_eq_true] at hq
    simp only [List.cons_append, p3tail]
    rw [if_neg (by rw [bool_not_true hq.1]; exact Bool.false_ne_true)]
    rw [if_neg (by rw [bool_not_true hq.2]; exact Bool.false_ne_true)]
    exact ih hQ2

theorem p4tail_eval {Q num : List Char} (hQ : Q.all (fun c => !(isDigitChar c)) = true)
    (hnum : validNumB num = true) :
    p4tail (Q ++ num) = none ∨ p4tail (Q ++ num) = some num := by
  obtain ⟨n0, nrest, hn, hn0⟩ := validNum_head hnum
  unfold p4tail
  rw [dropWs_append_num hnum]
  rcases hQd : dropWs Q with _ | ⟨q, Q2⟩
  · rw [List.nil_append]
    right
    conv_lhs => rw [hn]
    rw [show stripSep (n0 :: nrest) = n0 :: nrest by
      simp only [stripSep, digit_not_sep hn0]; rfl]
    rw [show dropWs (n0 :: nrest) = n0 :: nrest from dropWs_cons_of_not_ws (digit_not_ws hn0)]
    rw [← hn]
    exact captureNum_valid hnum
  · rw [List.cons_append]
    have hq_nd : isDigitChar q = false := dropWs_head_not_digit hQ hQd
    have hq_nws : isWsChar q = false := dropWhile_head_false hQd
    have hQ2 : Q2.all (fun c => !(isDigitChar c)) = true := dropWs_tail_all hQ hQd
    by_cases hqc : (q == ':' || q == '-' || q == '=') = true
    · rw [show stripSep (q :: (Q2 ++ num)) = Q2 ++ num by
        simp only [stripSep, hqc]; rfl]
      exact captureNum_dropWs_append hQ2 hnum
    · rw [show stripSep (q :: (Q2 ++ num)) = q :: (Q2 ++ num) by
        simp only [stripSep, if_neg hqc]]
      rw [dropWs_cons_of_not_ws hq_nws]
      exact Or.inl (captureNum_cons_none hq_nd)

theorem attempt_core {V P num : List Char} (hgood : goodVariant V P = true)
    (hnum : validNumB num = true) {tl : List Char → Option (List Char)}
    (htl : ∀ Q, Q.all (fun c => !(isDigitChar c)) = true →
      tl (Q ++ num) = none ∨ tl (Q ++ num) = some num)
    {s : List Char} {i : Nat} (hs : s = (P ++ num).drop i)
    (hpre : isPrefixCI V s = true) :
    tl (s.drop V.length) = none ∨ tl (s.drop V.length) = some num := by
  unfold goodVariant at hgood
  rw [Bool.and_eq_true, Bool.and_eq_true] at hgood
  obtain ⟨⟨hany, hocc⟩, hov⟩ := hgood
  rcases Nat.lt_or_ge i P.length with hiP | hiP
  · have hd : (P ++ num).drop i = P.drop i ++ num := by
      rw [List.drop_append_eq_append_drop, Nat.sub_eq_zero_of_le (Nat.le_of_lt hiP),
        List.drop_zero]
    rw [hd] at hs
    subst hs
    rcases le_or_lt V.length (P.drop i).length with hVA | hVA
    · have hpreA : isPrefixCI V (P.drop i) = true := isPrefixCI_append_left hpre hVA
      have hoccI := okOccAll_spec hocc i
      unfold okOcc at hoccI
      rw [hpreA] at hoccI
      simp only [Bool.not_true, Bool.false_or] at hoccI
      have hdrop : (P.drop i ++ num).drop V.length = (P.drop i).drop V.length ++ num := by
        rw [List.drop_append_eq_append_drop, Nat.sub_eq_zero_of_le hVA, List.drop_zero]
      rw [hdrop]
      exact htl _ hoccI
    · exfalso
      have hsp := isPrefixCI_append_split hpre (Nat.le_of_lt hVA)
      have hovI := okOverlapAll_spec hov hiP
      unfold okOverlap at hovI
      rw [decide_eq_false (Nat.not_le.mpr hVA), hsp.1] at hovI
      simp only [Bool.not_true, Bool.or_false, Bool.false_or] at hovI
      have htr := isPrefixCI_transfer hsp.2 (validNum_all hnum)
      rw [List.any_eq_true] at hovI
      obtain ⟨x, hx, hpx⟩ := hovI
      rw [List.all_eq_true] at htr
      have hxd := htr x hx
      unfold noDigitDotChar at hpx
      rw [hxd] at hpx
      exact Bool.noConfusion hpx
  · exfalso
    have hd : (P ++ num).drop i = num.drop (i - P.length) := by
      rw [List.drop_append_eq_append_drop, List.drop_eq_nil_of_le hiP, List.nil_append]
    rw [hd] at hs
    subst hs
    have hsall : (num.drop (i - P.length)).all isDigitDot = true :=
      all_drop (validNum_all hnum) _
    have htr := isPrefixCI_transfer hpre hsall
    rw [List.any_eq_true] at hany
    obtain ⟨x, hx, hpx⟩ := hany
    rw [List.all_eq_true] at htr
    have hxd := htr x hx
    unfold noDigitDotChar at hpx
    rw [hxd] at hpx
    exact Bool.noConfusion hpx

theorem searchLit_eval {V P num : List Char} (hgood : goodVariant V P = true)
    (hnum : validNumB num = true) {tl : List Char → Option (List Char)}
    (htl : ∀ Q, Q.all (fun c => !(isDigitChar c)) = true →
      tl (Q ++ num) = none ∨ tl (Q ++ num) = some num) :
    ∀ (s : List Char) (i : Nat), s = (P ++ num).drop i →
      searchLit V tl s = none ∨ searchLit V tl s = some num := by
  intro s
  induction s with
  | nil =>
    intro i _
    left
    simp only [searchLit]
    have hVne := goodVariant_ne_nil hgood
    have hnp : ¬ (isPrefixCI V ([] : List Char) = true) := by
      intro hpre
      have hle := isPrefixCI_length_le hpre
      cases hV : V with
      | nil => exact hVne hV
      | cons a as => rw [hV] at hle; simp at hle
    rw [if_neg hnp]
  | cons c r ih =>
    intro i hs
    have hr : r = (P ++ num).drop (i + 1) := by
      have h2 : r = ((P ++ num).drop i).drop 1 := by rw [← hs]; rfl
      rw [h2, List.drop_drop, Nat.add_comm]
    simp only [searchLit]
    split
    · rename_i cap heq
      split at heq
      · rename_i hpre
        have hc := attempt_core hgood hnum htl hs hpre
        rw [heq] at hc
        exact hc
      · exact Option.noConfusion heq
    · exact ih (i + 1) hr

theorem searchB_eval {V P num : List Char} (hgood : goodVariant V P = true)
    (hnum : validNumB num = true) :
    ∀ (s : List Char) (prev : Option Char) (i : Nat), s = (P ++ num).drop i →
      searchB V prev s = none ∨ searchB V prev s = some num := by
  intro s
  induction s with
  | nil => intro prev i _; exact Or.inl rfl
  | cons c r ih =>
    intro prev i hs
    have hr : r = (P ++ num).drop (i + 1) := by
      have h2 : r = ((P ++ num).drop i).drop 1 := by rw [← hs]; rfl
      rw [h2, List.drop_drop, Nat.add_comm]
    simp only [searchB]
    split
    · rename_i cap heq
      split at heq
      · rename_i hcond
        rw [Bool.and_eq_true, Bool.and_eq_true] at hcond
        have hc := attempt_core hgood hnum (fun Q hQ => p4tail_eval hQ hnum) hs hcond.1.1
        rw [heq] at hc
        exact hc
      · exact Option.noConfusion heq
    · exact ih (some c) (i + 1) hr

theorem searchLit_self {a : Char} {as sep num : List Char}
    (hsep : sep.all (fun c => !(isDigitChar c) && !(c == '\n')) = true)
    (hnum : validNumB num = true) :
    searchLit (a :: as) p3tail ((a :: as) ++ sep ++ num) = some num := by
  have harr : (a :: as) ++ sep ++ num = a :: (as ++ (sep ++ num)) := by
    simp [List.append_assoc]
  rw [harr]
  simp only [searchLit]
  have hpre : isPrefixCI (a :: as) (a :: (as ++ (sep ++ num))) = true := by
    have h := isPrefixCI_self_append (a :: as) (sep ++ num)
    simpa [List.cons_append] using h
  rw [if_pos hpre]
  have hdrop : (a :: (as ++ (sep ++ num))).drop (a :: as).length = sep ++ num := by
    rw [show (a :: as).length = as.length + 1 from rfl, List.drop_succ_cons]
    exact List.drop_left as (sep ++ num)
  rw [hdrop, p3tail_pos hsep hnum]

theorem tryPatternsFor_eval {V P num : List Char} (hgood : goodVariant V P = true)
    (hnum : validNumB num = true) :
    tryPatternsFor V (P ++ num) = none ∨ tryPatternsFor V (P ++ num) = some num := by
  have h1 := searchLit_eval hgood hnum (fun Q hQ => p1tail_eval hQ hnum) (P ++ num) 0 rfl
  have h2 := searchLit_eval hgood hnum (fun Q hQ => p2tail_eval hQ hnum) (P ++ num) 0 rfl
  have h3 := searchLit_eval hgood hnum (fun Q hQ => p3tail_eval hQ hnum) (P ++ num) 0 rfl
  have h4 := searchLit_eval hgood hnum (fun Q hQ => p4tail_eval hQ hnum) (P ++ num) 0 rfl
  have h5 := searchB_eval hgood hnum (P ++ num) none 0 rfl
  unfold tryPatternsFor
  rcases h1 with h1 | h1
  · rw [h1]
    rcases h2 with h2 | h2
    · rw [h2]
      rcases h3 with h3 | h3
      · rw [h3]
        rcases h4 with h4 | h4
        · rw [h4]
          exact h5
        · rw [h4]
          right
          rfl
      · rw [h3]
        right
        rfl
    · rw [h2]
      right
      rfl
  · rw [h1]
    right
    rfl

theorem tryPatternsFor_pos {al : List Char} {sep num : List Char}
    (hgood : goodVariant al (al ++ sep) = true)
    (hsep : sep.all (fun c => !(isDigitChar c) && !(c == '\n')) = true)
    (hnum : validNumB num = true) :
    tryPatternsFor al ((al ++ sep) ++ num) = some num := by
  have h1 := searchLit_eval hgood hnum (fun Q hQ => p1tail_eval hQ hnum)
    ((al ++ sep) ++ num) 0 rfl
  have h2 := searchLit_eval hgood hnum (fun Q hQ => p2tail_eval hQ hnum)
    ((al ++ sep) ++ num) 0 rfl
  have h3pos : searchLit al p3tail ((al ++ sep) ++ num) = some num := by
    obtain ⟨a, as, ha⟩ : ∃ a as, al = a :: as := by
      cases hV : al with
      | nil => exact absurd hV (goodVariant_ne_nil hgood)
      | cons a as => exact ⟨a, as, rfl⟩
    subst ha
    exact searchLit_self hsep hnum
  unfold tryPatternsFor
  rcases h1 with h1 | h1
  · rw [h1]
    rcases h2 with h2 | h2
    · rw [h2, h3pos]
    · rw [h2]
  · rw [h1]

theorem tryVariants_eval {al : String} {vs : List String} {sep num : List Char}
    (hmem : al ∈ vs)
    (hgood : ∀ v ∈ vs, goodVariant v.toList (al.toList ++ sep) = true)
    (hsep : sep.all (fun c => !(isDigitChar c) && !(c == '\n')) = true)
    (hnum : validNumB num = true) :
    tryVariants vs (al.toList ++ sep ++ num) = some num := by
  induction vs with
  | nil => cases hmem
  | cons v rest ih =>
    simp only [tryVariants]
    have hv := tryPatternsFor_eval (hgood v (List.mem_cons_self v rest)) hnum
    rcases hv with hv | hv
    · rw [hv]
      rcases List.mem_cons.mp hmem with heq | hmem'
      · exfalso
        subst heq
        have hpos := tryPatternsFor_pos (hgood al (List.mem_cons_self al rest)) hsep hnum
        rw [hv] at hpos
        exact Option.noConfusion hpos
      · exact ih hmem' (fun w hw => hgood w (List.mem_cons_of_mem v hw))
    · rw [hv]

theorem lookup_mem {l : List (String × List String)} {k : String} {v : List String}
    (h : l.lookup k = some v) : (k, v) ∈ l := by
  induction l with
  | nil => exact Option.noConfusion h
  | cons p rest ih =>
    obtain ⟨k', v'⟩ := p
    simp only [List.lookup] at h
    cases hb : (k == k')
    · rw [hb] at h
      exact List.mem_cons_of_mem _ (ih h)
    · rw [hb] at h
      injection h with h
      subst h
      have hkk : k = k' := eq_of_beq hb
      subst hkk
      exact List.mem_cons_self _ _

theorem lookupVariants_eq {t : String} {vs : List String}
    (h : test_variants.lookup t = some vs) : lookupVariants t = vs := by
  unfold lookupVariants
  rw [h]

set_option maxHeartbeats 4000000 in
theorem tableGood_true : tableGood = true := by decide

theorem tableGood_spec {canonical : String} {vs : List String} {al sep : String}
    (hlook : (canonical, vs) ∈ test_variants) (hal : al ∈ vs) (hsep : sep ∈ seps)
    (v : String) (hv : v ∈ vs) :
    goodVariant v.toList (al.toList ++ sep.toList) = true := by
  have h := tableGood_true
  unfold tableGood at h
  simp only [List.all_eq_true] at h
  exact h (canonical, vs) hlook al hal sep hsep v hv

/-- **C7.** Alias resolution: for every canonical measurement name of the
`test_variants` table, every registered alias of it, and every one of the five
separator styles, extracting from the text built as alias-separator-number
yields exactly the number, so the extracted value is the same no matter which
alias or separator style is used. -/
theorem claim_C7_alias_resolution {canonical al sep : String} {vs : List String}
    {num : List Char}
    (hlook : test_variants.lookup canonical = some vs)
    (hal : al ∈ vs)
    (hsep : sep ∈ seps)
    (hnum : validNumB num = true) :
    parse_test_value (al ++ sep ++ String.mk num) canonical = some (capToRat num) := by
  have hgoodAll : ∀ v ∈ vs, goodVariant v.toList (al.toList ++ sep.toList) = true :=
    fun v hv => tableGood_spec (lookup_mem hlook) hal hsep v hv
  have hsepchars : sep.toList.all (fun c => !(isDigitChar c) && !(c == '\n')) = true := by
    rcases (show sep = "" ∨ sep = ":" ∨ sep = " " ∨ sep = "-" ∨ sep = "=" by
      simpa [seps] using hsep) with h | h | h | h | h <;> subst h <;> decide
  have htry := tryVariants_eval hal hgoodAll hsepchars hnum
  have htext : (al ++ sep ++ String.mk num).toList = al.toList ++ sep.toList ++ num := by
    obtain ⟨la⟩ := al
    obtain ⟨ls⟩ := sep
    rfl
  unfold parse_test_value
  rw [lookupVariants_eq hlook, htext, htry]
  rfl

theorem claim_C7_alias_resolution_witness :
    test_variants.lookup "Glucose" = some ["Glucose", "GLU", "Blood Sugar", "BS"] ∧
    "GLU" ∈ ["Glucose", "GLU", "Blood Sugar", "BS"] ∧
    ":" ∈ seps ∧
    validNumB ['9', '9', '.', '5'] = true ∧
    parse_test_value ("GLU" ++ ":" ++ String.mk ['9', '9', '.', '5']) "Glucose" =
      some (capToRat ['9', '9', '.', '5']) :=
  ⟨by decide, by decide, by decide, by decide,
    claim_C7_alias_resolution
      (show test_variants.lookup "Glucose" = some ["Glucose", "GLU", "Blood Sugar", "BS"]
        by decide)
      (by decide) (by decide) (by decide)⟩

end MedMind
